import Mathlib

/-!
Shallow embedding of the grocery-scraper aggregation pipeline:
the text record parsers and normalizer of `scraper/sonar_client.py`
(history snapshot `sonar_client_20250817214405.py`), the cache helpers of
`scraper/cache.py`, and the `/products/aggregate` orchestrator of `main.py`
(history snapshot `main_20250827095226.py`).

Strings are modelled as lists of Unicode codepoints (`List Nat`); Python's
`str.lower`, `str.isalnum`, `str.title` and the regex class `\d` are modelled
on the ASCII range, which is the range all the literals of the program use.
Python dicts holding record fields are modelled as structures with `Option`
fields; Python floats produced by `float(m.group(1))` are modelled by the
digit string the regex matched (no claim depends on float arithmetic).
-/

/-- Codepoint strings. -/
abbrev Str := List Nat

/-- Convert a Lean string literal to its codepoint list. -/
def str (s : String) : Str := s.data.map Char.toNat

/-- Python whitespace for `str.strip` / `str.split()` / regex `\s` (ASCII part). -/
def isSpaceN (c : Nat) : Bool :=
  c = 32 || c = 9 || c = 10 || c = 13 || c = 11 || c = 12

/-- Python `str.lower` on one character (ASCII model). -/
def lowerN (c : Nat) : Nat := if 65 ≤ c ∧ c ≤ 90 then c + 32 else c

/-- Python `str.upper` on one character (ASCII model). -/
def upperN (c : Nat) : Nat := if 97 ≤ c ∧ c ≤ 122 then c - 32 else c

/-- Regex `\d` / `str.isdigit` (ASCII model). -/
def isDigitN (c : Nat) : Bool := 48 ≤ c && c ≤ 57

/-- ASCII letter. -/
def isAlphaN (c : Nat) : Bool := (65 ≤ c && c ≤ 90) || (97 ≤ c && c ≤ 122)

/-- Python `str.isalnum` (ASCII model). -/
def isAlnumN (c : Nat) : Bool := isDigitN c || isAlphaN c

/-- Python `str.lower`. -/
def pyLower (s : Str) : Str := s.map lowerN

/-- Python `str.strip()` (no argument: strips whitespace at both ends). -/
def pyStrip (s : Str) : Str :=
  ((s.dropWhile isSpaceN).reverse.dropWhile isSpaceN).reverse

/-- Python `str.startswith`. -/
def pyStartswith (pre s : Str) : Bool := pre.isPrefixOf s

/-- Structural worker for `pyReplace` (each step consumes at least one
character, so `fuel = s.length` always suffices; the `0` case is then
unreachable). -/
def pyReplaceFuel (pat rep : Str) : Nat → Str → Str
  | _, [] => []
  | 0, s => s
  | fuel + 1, c :: cs =>
    if pat ≠ [] ∧ pat.isPrefixOf (c :: cs) then
      rep ++ pyReplaceFuel pat rep fuel ((c :: cs).drop pat.length)
    else
      c :: pyReplaceFuel pat rep fuel cs

/-- Python `str.replace(pat, rep)`: replace non-overlapping occurrences left to
right.  (Python's behaviour for an empty `pat` is not reproduced; every call
site of the program uses a non-empty pattern, and this model leaves the string
unchanged there.) -/
def pyReplace (pat rep : Str) (s : Str) : Str :=
  pyReplaceFuel pat rep s.length s

/-- Structural worker for `pySplit` (`fuel = s.length` suffices). -/
def pySplitFuel (sep : Str) : Nat → Str → List Str
  | _, [] => [[]]
  | 0, s => [s]
  | fuel + 1, c :: cs =>
    if sep ≠ [] ∧ sep.isPrefixOf (c :: cs) then
      [] :: pySplitFuel sep fuel ((c :: cs).drop sep.length)
    else
      match pySplitFuel sep fuel cs with
      | [] => [[c]]
      | p :: ps => (c :: p) :: ps

/-- Python `s.split(sep)` for a non-empty separator: split on every
non-overlapping occurrence, keeping empty pieces (`"".split(sep) = [""]`). -/
def pySplit (sep : Str) (s : Str) : List Str :=
  pySplitFuel sep s.length s

/-- Structural worker for `pySplitWs` (`fuel = s.length` suffices). -/
def pySplitWsFuel : Nat → Str → List Str
  | _, [] => []
  | 0, _ => []
  | fuel + 1, c :: cs =>
    if isSpaceN c then pySplitWsFuel fuel cs
    else ((c :: cs).takeWhile (fun x => !isSpaceN x))
      :: pySplitWsFuel fuel (cs.dropWhile (fun x => !isSpaceN x))

/-- Python `s.split()` (no argument: split on whitespace runs, no empties). -/
def pySplitWs (s : Str) : List Str := pySplitWsFuel s.length s

/-- Python `sep.join(parts)`. -/
def pyJoin (sep : Str) : List Str → Str
  | [] => []
  | [p] => p
  | p :: q :: rest => p ++ sep ++ pyJoin sep (q :: rest)

/-- Python `pat in s` (substring containment). -/
def containsSub (pat : Str) : Str → Bool
  | [] => pat.isEmpty
  | c :: cs => pat.isPrefixOf (c :: cs) || containsSub pat cs

/-! ## Normalizer (`main.aggregate_products`, lines 457-475) -/

/-- `norm_text(s) = (s or "").lower().strip()`. -/
def norm_text (s : Option Str) : Str := pyStrip (pyLower (s.getD []))

/-- `norm_name`: `norm_text`, drop the embedded tokens " brand ", " original ",
" the ", turn hyphens into spaces, collapse whitespace. -/
def norm_name (name : Option Str) : Str :=
  let n := norm_text name
  let n := pyReplace (str " brand ") (str " ") n
  let n := pyReplace (str " original ") (str " ") n
  let n := pyReplace (str " the ") (str " ") n
  let n := pyReplace (str "-") (str " ") n
  pyJoin (str " ") (pySplitWs n)

/-- `norm_size`: `norm_text`, then the unit-synonym rewrites in source order,
then collapse whitespace. -/
def norm_size (size : Option Str) : Str :=
  let s := norm_text size
  let s := pyReplace (str "fluid ounces") (str "fl oz") s
  let s := pyReplace (str "fluid ounce") (str "fl oz") s
  let s := pyReplace (str "ounces") (str "oz") s
  let s := pyReplace (str "ounce") (str "oz") s
  let s := pyReplace (str "fl. oz") (str "fl oz") s
  let s := pyReplace (str "fl-oz") (str "fl oz") s
  let s := pyReplace (str "packs") (str "pack") s
  let s := pyReplace (str " ct") (str " count") s
  let s := pyReplace (str "ct") (str "count") s
  pyJoin (str " ") (pySplitWs s)

/-! ## Store-id slug (`SonarClient._create_store_id`, lines 511-521) -/

/-- Apostrophe codepoint. -/
def apos : Nat := 39

/-- `_create_store_id`: lowercase, spaces and hyphens to underscores, drop
apostrophes, `&` to `and`, keep only alphanumerics and underscores, collapse
repeated underscores (and trim leading/trailing ones) via
`'_'.join(filter(None, s.split('_')))`. -/
def create_store_id (store_name : Str) : Str :=
  let c := pyLower store_name
  let c := pyReplace (str " ") (str "_") c
  let c := pyReplace (str "-") (str "_") c
  let c := pyReplace [apos] [] c
  let c := pyReplace (str "&") (str "and") c
  let c := c.filter (fun ch => isAlnumN ch || ch = 95)
  pyJoin (str "_") ((pySplit (str "_") c).filter (· ≠ []))

/-! ## Regex models (`re.search` on the patterns the parsers use) -/

/-- Length matched by `https?://` at the head of `l` (`cs = true` compares
case-sensitively, otherwise the `re.IGNORECASE` behaviour). -/
def schemeLen (ign : Bool) (l : Str) : Option Nat :=
  let t := if ign then pyLower l else l
  if (str "http").isPrefixOf t then
    if (str "s://").isPrefixOf (t.drop 4) then some 8
    else if (str "://").isPrefixOf (t.drop 4) then some 7
    else none
  else none

/-- The image extensions of the pattern
`https?://[^\s]+\.(?:jpg|jpeg|png|gif|webp|svg)`, in alternation order. -/
def imgExts : List Str :=
  [str "jpg", str "jpeg", str "png", str "gif", str "webp", str "svg"]

/-- First alternation branch of `(?:jpg|jpeg|png|gif|webp|svg)` matching at the
head of `l`, as its length. -/
def extLen (l : Str) : Option Nat :=
  imgExts.findSome? fun e => if e.isPrefixOf l then some e.length else none

/-- Backtracking of the greedy `[^\s]+` in the image-URL pattern: try the dot
at `base + k` for `k = n, n-1, …, 1`, and return the end position of the first
`\.(?:ext)` that matches (`low` is the lowercased line). -/
def dotSearch (low : Str) (base : Nat) : Nat → Option Nat
  | 0 => none
  | k + 1 =>
    let p := base + (k + 1)
    if low.get? p = some 46 then
      match extLen (low.drop (p + 1)) with
      | some el => some (p + 1 + el)
      | none => dotSearch low base k
    else dotSearch low base k

/-- `re.search(r'https?://[^\s]+\.(?:jpg|jpeg|png|gif|webp|svg)', line,
re.IGNORECASE)`, returning `group(0)` (the slice of the original line). -/
def findImageUrl (line : Str) : Option Str :=
  let low := pyLower line
  (List.range (line.length + 1)).findSome? fun i =>
    match schemeLen true (line.drop i) with
    | none => none
    | some sl =>
      let base := i + sl
      let run := ((low.drop base).takeWhile (fun c => !isSpaceN c)).length
      (dotSearch low base run).map fun e => (line.take e).drop i

/-- `re.search(r'\$(\d+\.?\d*)', s)`, returning `group(1)`. -/
def priceGroup (s : Str) : Option Str :=
  (List.range s.length).findSome? fun i =>
    if s.get? i = some 36 then
      let ds := (s.drop (i + 1)).takeWhile isDigitN
      if ds ≠ [] then
        let j := i + 1 + ds.length
        if s.get? j = some 46 then
          some (ds ++ [46] ++ (s.drop (j + 1)).takeWhile isDigitN)
        else some ds
      else none
    else none

/-- The size units of the fallback pattern
`(\d+\s*(?:oz|ounce|gallon|pack|count|fl oz|ml|l))`, in alternation order. -/
def sizeUnits : List Str :=
  [str "oz", str "ounce", str "gallon", str "pack", str "count",
   str "fl oz", str "ml", str "l"]

/-- `re.search(r'(\d+\s*(?:oz|ounce|gallon|pack|count|fl oz|ml|l))', line,
re.IGNORECASE)`, returning `group(1)` (slice of the original line). -/
def sizeGroup (line : Str) : Option Str :=
  let low := pyLower line
  (List.range line.length).findSome? fun i =>
    let ds := (low.drop i).takeWhile isDigitN
    if ds ≠ [] then
      let j := i + ds.length
      let sp := (low.drop j).takeWhile isSpaceN
      let k := j + sp.length
      match sizeUnits.findSome?
          (fun u => if u.isPrefixOf (low.drop k) then some u.length else none) with
      | some ul => some ((line.take (k + ul)).drop i)
      | none => none
    else none

/-- `re.search(r'https?://[^\s]+', line)` (case-sensitive), `group(0)`. -/
def findAnyUrl (line : Str) : Option Str :=
  (List.range (line.length + 1)).findSome? fun i =>
    match schemeLen false (line.drop i) with
    | none => none
    | some sl =>
      let run := ((line.drop (i + sl)).takeWhile (fun c => !isSpaceN c)).length
      if run ≥ 1 then some ((line.take (i + sl + run)).drop i) else none

/-! ## Parsed records -/

/-- A Python float or the raw text, as stored in a product's `price` field:
`num d` stands for `float(d)` where `d` is the digit string the price regex
matched; `txt` is the raw retained text. -/
inductive PyPrice where
  | num (digits : Str)
  | txt (raw : Str)
deriving DecidableEq

/-- The product dict built by `SonarClient._parse_product_response` (plus the
`product_url` key that `_enhance_products_with_real_urls` may add). -/
structure PyProduct where
  name : Option Str := none
  brand : Option Str := none
  price : Option PyPrice := none
  size : Option Str := none
  category : Option Str := none
  availability : Option Str := none
  description : Option Str := none
  image_url : Option Str := none
  deals : Option Str := none
  product_url : Option Str := none
deriving DecidableEq

/-- The `StoreLocation` fields that `_parse_store_response` populates. -/
structure StoreRec where
  store_id : Str
  store_name : Str
  zipcode : Str
  status : Str
  address : Option Str := none
  website : Option Str := none
  services : Option (List Str) := none
deriving DecidableEq

/-! ## Product parsing (`SonarClient._parse_product_response`, lines 702-809,
and `_parse_products_by_patterns`, lines 811-881) -/

/-- Fallback keywords that make a line a candidate product name. -/
def brandKeywords : List Str :=
  [str "oatly", str "chobani", str "silk", str "almond", str "soy", str "milk"]

/-- Fallback availability keywords. -/
def availKeywords : List Str :=
  [str "in stock", str "available", str "out of stock", str "unavailable",
   str "limited"]

/-- Fallback deal keywords. -/
def dealKeywords : List Str :=
  [str "discount", str "sale", str "off", str "deal", str "promotion"]

/-- Product-page domains accepted by the fallback's bare-URL branch. -/
def urlDomains : List Str :=
  [str "target.com", str "walmart.com", str "amazon.com", str "kroger.com"]

/-- Fallback branch: adopt the line as product name if none set yet. -/
def patName (p : PyProduct) (line : Str) : PyProduct :=
  if p.name = none then { p with name := some line } else p

/-- Fallback branch: numeric price from the `$` pattern. -/
def patPrice (p : PyProduct) (line : Str) : PyProduct :=
  { p with price := (priceGroup line).map .num }

/-- Fallback branch: availability text is the whole line. -/
def patAvail (p : PyProduct) (line : Str) : PyProduct :=
  { p with availability := some line }

/-- Fallback branch: deals text is the whole line. -/
def patDeals (p : PyProduct) (line : Str) : PyProduct :=
  { p with deals := some line }

/-- Fallback branch: size from the size-unit pattern. -/
def patSize (p : PyProduct) (line : Str) : PyProduct :=
  { p with size := sizeGroup line }

/-- Fallback branch: image URL from the image-extension pattern. -/
def patImg (p : PyProduct) (line : Str) : PyProduct :=
  { p with image_url := findImageUrl line }

/-- Fallback branch: a bare product-page URL of a known domain stands in for
the image URL when none is set. -/
def patUrlTail (p : PyProduct) (line : Str) : PyProduct :=
  match findAnyUrl line with
  | some url =>
    if p.image_url = none ∧
        urlDomains.any (fun d => containsSub d (pyLower url)) then
      { p with image_url := some url }
    else p
  | none => p

/-- One line of `_parse_products_by_patterns` (state: emitted products and the
in-progress product). -/
def patLineStep (st : List PyProduct × PyProduct) (rawLine : Str) :
    List PyProduct × PyProduct :=
  let line := pyStrip rawLine
  if line = [] then
    if st.2.name ≠ none then (st.1 ++ [st.2], {}) else st
  else if brandKeywords.any (fun b => containsSub b (pyLower line)) then
    (st.1, patName st.2 line)
  else if (priceGroup line).isSome then
    (st.1, patPrice st.2 line)
  else if availKeywords.any (fun k => containsSub k (pyLower line)) then
    (st.1, patAvail st.2 line)
  else if dealKeywords.any (fun k => containsSub k (pyLower line)) then
    (st.1, patDeals st.2 line)
  else if (sizeGroup line).isSome then
    (st.1, patSize st.2 line)
  else if (findImageUrl line).isSome then
    (st.1, patImg st.2 line)
  else
    (st.1, patUrlTail st.2 line)

/-- `_parse_products_by_patterns`: line-oriented keyword scan over the whole
response. -/
def parse_products_by_patterns (response : Str) : List PyProduct :=
  let fin := (pySplit (str "\n") response).foldl patLineStep ([], {})
  if fin.2.name ≠ none then fin.1 ++ [fin.2] else fin.1

/-- `PRODUCT:` block: the value with the prefix removed and stripped, set as
the name unless empty or the verbatim placeholder. -/
def procProduct (st : PyProduct) (line : Str) : PyProduct :=
  let v := pyStrip (pyReplace (str "PRODUCT:") [] line)
  if v ≠ [] ∧ v ≠ str "[Product Name]" then { st with name := some v } else st

/-- `BRAND:` block. -/
def procBrand (st : PyProduct) (line : Str) : PyProduct :=
  let v := pyStrip (pyReplace (str "BRAND:") [] line)
  if v ≠ [] ∧ v ≠ str "[Brand Name]" then { st with brand := some v } else st

/-- `PRICE:` block: numeric value when the `$` pattern matches, otherwise the
raw text is retained. -/
def procPrice (st : PyProduct) (line : Str) : PyProduct :=
  let v := pyStrip (pyReplace (str "PRICE:") [] line)
  if v ≠ [] ∧ v ≠ str "[Price with $ symbol, or \"Price not available\"]" then
    { st with price := some (match priceGroup v with
        | some d => .num d
        | none => .txt v) }
  else st

/-- `SIZE:` block. -/
def procSize (st : PyProduct) (line : Str) : PyProduct :=
  let v := pyStrip (pyReplace (str "SIZE:") [] line)
  if v ≠ [] ∧ v ≠ str "[Size/quantity, e.g., \"32 oz\", \"1 gallon\", \"12 pack\"]" then
    { st with size := some v }
  else st

/-- `CATEGORY:` block. -/
def procCategory (st : PyProduct) (line : Str) : PyProduct :=
  let v := pyStrip (pyReplace (str "CATEGORY:") [] line)
  if v ≠ [] ∧ v ≠ str "[Product category, e.g., \"Dairy\", \"Beverages\", \"Organic\"]" then
    { st with category := some v }
  else st

/-- `AVAILABILITY:` block. -/
def procAvailability (st : PyProduct) (line : Str) : PyProduct :=
  let v := pyStrip (pyReplace (str "AVAILABILITY:") [] line)
  if v ≠ [] ∧ v ≠ str "[in stock/out of stock/limited]" then
    { st with availability := some v }
  else st

/-- `DESCRIPTION:` block. -/
def procDescription (st : PyProduct) (line : Str) : PyProduct :=
  let v := pyStrip (pyReplace (str "DESCRIPTION:") [] line)
  if v ≠ [] ∧ v ≠ str "[Brief product description]" then
    { st with description := some v }
  else st

/-- `IMAGE_URL:` block.  Note the placeholder it filters is the one of an
older prompt template, not the placeholder the current template uses. -/
def procImage (st : PyProduct) (line : Str) : PyProduct :=
  let v := pyStrip (pyReplace (str "IMAGE_URL:") [] line)
  if v ≠ [] ∧ v ≠ str "[Product image URL if available, or \"N/A\"]" ∧
      v ≠ str "N/A" then
    { st with image_url := some v }
  else st

/-- `DEALS:` block. -/
def procDeals (st : PyProduct) (line : Str) : PyProduct :=
  let v := pyStrip (pyReplace (str "DEALS:") [] line)
  if v ≠ [] ∧ v ≠ str "[Any current deals, discounts, or \"None\"]" then
    { st with deals := some v }
  else st

/-- The tail of the line scan after the bare-URL recovery did not fire: the
`DEALS:` prefix check. -/
def dealsTail (st : PyProduct) (line : Str) : PyProduct :=
  if pyStartswith (str "DEALS:") line then procDeals st line else st

/-- The end of the line scan: bare-URL recovery (sets the image URL and stops
processing the line when it fires on a record without one), then the `DEALS:`
check. -/
def urlOrDeals (st : PyProduct) (line : Str) : PyProduct :=
  match findImageUrl line with
  | some u =>
    if st.image_url = none then { st with image_url := some u }
    else dealsTail st line
  | none => dealsTail st line

/-- One line of the structured product scan (the `for line in lines` body of
`_parse_product_response`); the field-prefix branches in source order, then
the bare-URL recovery, then `DEALS:`. -/
def prodLineStep (st : PyProduct) (rawLine : Str) : PyProduct :=
  let line := pyStrip rawLine
  if line = [] then st
  else if pyStartswith (str "PRODUCT:") line then procProduct st line
  else if pyStartswith (str "BRAND:") line then procBrand st line
  else if pyStartswith (str "PRICE:") line then procPrice st line
  else if pyStartswith (str "SIZE:") line then procSize st line
  else if pyStartswith (str "CATEGORY:") line then procCategory st line
  else if pyStartswith (str "AVAILABILITY:") line then procAvailability st line
  else if pyStartswith (str "DESCRIPTION:") line then procDescription st line
  else if pyStartswith (str "IMAGE_URL:") line then procImage st line
  else urlOrDeals st line

/-- One blank-line section of `_parse_product_response`. -/
def prodSection (acc : List PyProduct) (sec : Str) : List PyProduct :=
  let p := (pySplit (str "\n") (pyStrip sec)).foldl prodLineStep {}
  if p.name ≠ none then acc ++ [p] else acc

/-- `_parse_product_response`. -/
def parse_product_response (response : Str) : List PyProduct :=
  if containsSub (str "no products found") (pyLower response) then []
  else
    let products := (pySplit (str "\n\n") response).foldl prodSection []
    if products = [] then parse_products_by_patterns response else products

/-! ## Store parsing (`SonarClient._parse_store_response`, lines 413-436,
`_extract_structured_stores`, `_extract_stores_by_patterns`,
`_parse_services_from_text`) -/

/-- Allowed service tokens of `_parse_services_from_text`. -/
def allowedServices : List Str :=
  [str "delivery", str "pickup", str "curbside", str "in-store", str "online"]

/-- `_parse_services_from_text`: split on commas, strip and lowercase, keep
only the known service tokens. -/
def parse_services_from_text (services_text : Str) : List Str :=
  if services_text = [] then []
  else
    ((pySplit (str ",") services_text).map
      (fun s => pyLower (pyStrip s))).filter (allowedServices.contains ·)

/-- `ADDRESS:` block of the store scan. -/
def storeAddressUpd (line : Str) (cur : StoreRec) : StoreRec :=
  let v := pyStrip (pyReplace (str "ADDRESS:") [] line)
  if v ≠ [] ∧ v ≠ str "[Complete street address with city, state, zip]" ∧
      ¬ pyStartswith (str "-") v then
    { cur with address := some v }
  else cur

/-- `SERVICES:` block of the store scan. -/
def storeServicesUpd (line : Str) (cur : StoreRec) : StoreRec :=
  let v := pyStrip (pyReplace (str "SERVICES:") [] line)
  if v ≠ [] ∧
      v ≠ str "[comma-separated list: delivery, pickup, curbside, in-store]" then
    let svcs := parse_services_from_text v
    if svcs ≠ [] then { cur with services := some svcs } else cur
  else cur

/-- `WEBSITE:` block of the store scan. -/
def storeWebsiteUpd (line : Str) (cur : StoreRec) : StoreRec :=
  let v := pyStrip (pyReplace (str "WEBSITE:") [] line)
  if v ≠ [] ∧ v ≠ str "[full URL if available, or \"N/A\"]" ∧
      v ≠ str "N/A" then
    { cur with website := some v }
  else cur

/-- `STATUS:` block of the store scan. -/
def storeStatusUpd (line : Str) (cur : StoreRec) : StoreRec :=
  let v := pyStrip (pyReplace (str "STATUS:") [] line)
  if v ≠ [] ∧ v ≠ str "[open/closed/temporarily closed]" then
    { cur with status := v }
  else cur

/-- `STORE:` block of the store scan: a valid new name emits the previous
in-progress store and opens a fresh one. -/
def storeOpen (zipcode : Str) (st : List StoreRec × Option StoreRec)
    (line : Str) : List StoreRec × Option StoreRec :=
  let v := pyStrip (pyReplace (str "STORE:") [] line)
  if v ≠ [] ∧ v ≠ str "[Store Name]" then
    (match st.2 with
     | some cur => st.1 ++ [cur]
     | none => st.1,
     some { store_id := create_store_id v, store_name := v,
            zipcode := zipcode, status := str "active" })
  else st

/-- One line of `_extract_structured_stores` (state: stores emitted so far and
the in-progress store). -/
def storeLineStep (zipcode : Str) (st : List StoreRec × Option StoreRec)
    (rawLine : Str) : List StoreRec × Option StoreRec :=
  let line := pyStrip rawLine
  if line = [] then st
  else if pyStartswith (str "STORE:") line then storeOpen zipcode st line
  else if pyStartswith (str "ADDRESS:") line ∧ st.2.isSome then
    (st.1, st.2.map (storeAddressUpd line))
  else if pyStartswith (str "SERVICES:") line ∧ st.2.isSome then
    (st.1, st.2.map (storeServicesUpd line))
  else if pyStartswith (str "WEBSITE:") line ∧ st.2.isSome then
    (st.1, st.2.map (storeWebsiteUpd line))
  else if pyStartswith (str "STATUS:") line ∧ st.2.isSome then
    (st.1, st.2.map (storeStatusUpd line))
  else st

/-- One blank-line section of `_extract_structured_stores`. -/
def storeSection (zipcode : Str) (acc : List StoreRec) (sec : Str) :
    List StoreRec :=
  let fin := (pySplit (str "\n") (pyStrip sec)).foldl (storeLineStep zipcode)
    (acc, none)
  match fin.2 with
  | some cur => fin.1 ++ [cur]
  | none => fin.1

/-- The structured scan of `_extract_structured_stores` before its own
fallback. -/
def extract_structured_core (response zipcode : Str) : List StoreRec :=
  (pySplit (str "\n\n") response).foldl (storeSection zipcode) []

/-- The fixed store-name catalog of `_extract_stores_by_patterns`. -/
def storeCatalog : List Str :=
  [str "Giant Eagle", str "Wegmans", str "ALDI", str "Albertsons",
   str "ShopRite", str "Walmart", str "Target", str "Kroger", str "Safeway",
   str "Publix", str "Whole Foods", str "Trader Joe" ++ [apos] ++ str "s",
   str "Sprouts", str "Food Lion", str "Meijer", str "Hy-Vee",
   str "Stop & Shop", str "Giant", str "Shoppers", str "Harris Teeter"]

/-- The inline slug of `_extract_stores_by_patterns`
(`name.lower().replace(' ', '').replace(chr(39), '').replace('-', '')`). -/
def patternStoreId (nm : Str) : Str :=
  pyReplace (str "-") [] (pyReplace [apos] [] (pyReplace (str " ") [] (pyLower nm)))

/-- `_extract_stores_by_patterns`: one loosely-populated record per catalog
name contained (case-insensitively) in the text. -/
def extract_stores_by_patterns (text zipcode : Str) : List StoreRec :=
  storeCatalog.filterMap fun nm =>
    if containsSub (pyLower nm) (pyLower text) then
      some { store_id := patternStoreId nm, store_name := nm,
             zipcode := zipcode, status := str "active" }
    else none

/-- `_extract_structured_stores` (with its trailing fallback). -/
def extract_structured_stores (response zipcode : Str) : List StoreRec :=
  let stores := extract_structured_core response zipcode
  if stores = [] then extract_stores_by_patterns response zipcode else stores

/-- The pre-deduplication record list of `_parse_store_response`. -/
def rawStores (response zipcode : Str) : List StoreRec :=
  let stores := extract_structured_stores response zipcode
  if stores = [] then extract_stores_by_patterns response zipcode else stores

/-- The `unique_stores` dict of `_parse_store_response`: keep the first record
for each `store_id`, in insertion order. -/
def dedupStores (l : List StoreRec) : List StoreRec :=
  l.foldl
    (fun acc st =>
      if (acc.map (·.store_id)).contains st.store_id then acc else acc ++ [st])
    []

/-- `_parse_store_response`. -/
def parse_store_response (response zipcode : Str) : List StoreRec :=
  dedupStores (rawStores response zipcode)

/-! ## Offers and grouping (`main.aggregate_products`, lines 387-498) -/

/-- One entry of `all_offers` (the per-store offer dicts of the
normalization loop). -/
structure Offer where
  store_id : Str
  store_name : Str
  name : Option Str
  brand : Option Str
  size : Option Str
  price : Option PyPrice
  availability : Option Str
  image_url : Option Str
  product_url : Option Str
  source : List Str
deriving DecidableEq

/-- The offer dict appended to a group's `offers` list. -/
structure OfferOut where
  store_id : Str
  store_name : Str
  price : Option PyPrice
  availability : Option Str
  product_url : Option Str
  source : List Str
deriving DecidableEq

/-- The `canonical_product` dict of a group. -/
structure Canonical where
  name : Option Str
  brand : Option Str
  size : Option Str
  images : List Str
deriving DecidableEq

/-- One `grouped[gkey]` value. -/
structure OfferGroup where
  canonical_product : Canonical
  offers : List OfferOut
deriving DecidableEq

/-- `gkey = "|".join((norm_text(brand), norm_name(name), norm_size(size)))`. -/
def offerKey (o : Offer) : Str :=
  pyJoin (str "|") [norm_text o.brand, norm_name o.name, norm_size o.size]

/-- Projection of an offer to the dict appended to its group. -/
def offerOut (o : Offer) : OfferOut :=
  { store_id := o.store_id, store_name := o.store_name, price := o.price,
    availability := o.availability, product_url := o.product_url,
    source := o.source }

/-- `"images": [o["image_url"]] if o.get("image_url") else []` (Python
truthiness: `None` and the empty string both give `[]`). -/
def initImages (o : Offer) : List Str :=
  match o.image_url with
  | some u => if u ≠ [] then [u] else []
  | none => []

/-- The canonical-product dict created when an offer opens a new group. -/
def canonOf (o : Offer) : Canonical :=
  { name := o.name, brand := o.brand, size := o.size, images := initImages o }

/-- One iteration of the grouping loop over `all_offers`: append the offer to
its group, creating the group (keyed by `gkey`, insertion-ordered) if new. -/
def addOffer (acc : List (Str × OfferGroup)) (o : Offer) : List (Str × OfferGroup) :=
  let k := offerKey o
  if (acc.map (·.1)).contains k then
    acc.map fun kg =>
      if kg.1 = k then (kg.1, { kg.2 with offers := kg.2.offers ++ [offerOut o] })
      else kg
  else
    acc ++ [(k, { canonical_product := canonOf o, offers := [offerOut o] })]

/-- The `grouped` dict after the whole loop. -/
def aggregate (offers : List Offer) : List (Str × OfferGroup) :=
  offers.foldl addOffer []

/-- `results = list(grouped.values())`. -/
def aggregateResults (offers : List Offer) : List OfferGroup :=
  (aggregate offers).map (·.2)

/-! ## The `/products/aggregate` orchestrator (`main.aggregate_products`,
lines 336-515) -/

/-- A serper shopping row as consumed by the fallback branch
(`sp.get(...)`). -/
structure SerperRow where
  name : Option Str
  price : Option PyPrice
  availability : Option Str
  image_url : Option Str
  product_url : Option Str
deriving DecidableEq

/-- The payload built (and cached) by a miss-path aggregation. -/
structure AggPayload where
  query : Str
  zipcode : Str
  stores_considered : List Str
  results : List OfferGroup
  source : Str
deriving DecidableEq

/-- External collaborators and failure switches for one aggregation call.
`sonar sid` is the outcome of `fetch_store` (an exception models a timeout or
source error), `serper sid` the outcome of the secondary shopping search,
`cached` the payload `cache.get_json` returns, and `cacheSetRaises` whether
`cache.set_json` raises. -/
structure Env where
  nearbyIds : List Str
  cached : Option AggPayload
  cachedTtl : Option Int
  sonar : Str → Except Unit (List PyProduct)
  serperAvailable : Bool
  serper : Str → Except Unit (List SerperRow)
  cacheSetRaises : Bool

/-- The response returned to the caller: payload plus the `cache` dict
(`near_stale` is only present on the hit path). -/
structure AggResponse where
  payload : AggPayload
  cacheHit : Bool
  nearStale : Option Bool
deriving DecidableEq

/-- Observable I/O of one aggregation call. -/
inductive Effect where
  | getNearby
  | cacheGet
  | cacheTtl
  | sonarCall (sid : Str)
  | serperCall (sid : Str)
  | cacheSet
deriving DecidableEq

/-- `re.match(r"^\d{5}$", z)`: five digits, where `$` also accepts one final
newline. -/
def zipMatch (z : Str) : Bool :=
  (z.length = 5 && z.all isDigitN) ||
  (z.length = 6 && (z.take 5).all isDigitN && z.get? 5 = some 10)

/-- Python `str.title` (ASCII model): uppercase a letter that follows a
non-letter, lowercase the rest. -/
def pyTitle (s : Str) : Str :=
  (s.foldl
    (fun (acc : Str × Bool) c =>
      if isAlphaN c then (acc.1 ++ [if acc.2 then lowerN c else upperN c], true)
      else (acc.1 ++ [c], false))
    ([], false)).1

/-- `to_store_name`: the explicit id-to-name mapping, else
`store_id.replace("_", " ").title()`. -/
def to_store_name (sid : Str) : Str :=
  if sid = str "whole_foods" then str "Whole Foods Market"
  else if sid = str "sams_club" then str "Sam" ++ [apos] ++ str "s Club"
  else if sid = str "trader_joes" then str "Trader Joe" ++ [apos] ++ str "s"
  else if sid = str "ahold_delhaize" then str "Stop & Shop"
  else pyTitle (pyReplace (str "_") (str " ") sid)

/-- `user_store_ids = [s.strip().lower() for s in stores.split(",") if s.strip()]`. -/
def userStoreIds (stores : Option Str) : List Str :=
  match stores with
  | none => []
  | some s =>
    ((pySplit (str ",") s).filter (fun t => pyStrip t ≠ [])).map
      (fun t => pyLower (pyStrip t))

/-- The candidate store ids (user allowlist preferred, capped at 10). -/
def consideredStores (stores : Option Str) (env : Env) : List Str :=
  let user := userStoreIds stores
  if user ≠ [] then user.take 10 else env.nearbyIds.take 10

/-- Offer of one sonar product record for a store. -/
def mkSonarOffer (sid snm : Str) (p : PyProduct) : Offer :=
  { store_id := sid, store_name := snm, name := p.name, brand := p.brand,
    size := p.size, price := p.price, availability := p.availability,
    image_url := p.image_url, product_url := p.product_url,
    source := [str "perplexity_sonar"] }

/-- Offer of one serper shopping row for a store (no brand/size). -/
def mkSerperOffer (sid snm : Str) (sp : SerperRow) : Offer :=
  { store_id := sid, store_name := snm, name := sp.name, brand := none,
    size := none, price := sp.price, availability := sp.availability,
    image_url := sp.image_url, product_url := sp.product_url,
    source := [str "serper_shopping"] }

/-- The offers one candidate store contributes to `all_offers`: none on a
sonar exception; the serper fallback rows when sonar parsed nothing and
serper is available; otherwise the sonar records. -/
def storeContrib (env : Env) (sid : Str) : List Offer :=
  match env.sonar sid with
  | .error _ => []
  | .ok products =>
    if products = [] ∧ env.serperAvailable then
      match env.serper sid with
      | .ok rows => rows.map (mkSerperOffer sid (to_store_name sid))
      | .error _ => []
    else products.map (mkSonarOffer sid (to_store_name sid))

/-- `all_offers` for one aggregation call. -/
def allOffers (stores : Option Str) (env : Env) : List Offer :=
  (consideredStores stores env).flatMap (storeContrib env)

/-- `60 * 60 * 4 * 0.2` seconds, the near-stale bound. -/
def nearStaleBound : Int := 2880

/-- The serper calls the normalization loop performs. -/
def serperEffects (stores : Option Str) (env : Env) : List Effect :=
  (consideredStores stores env).filterMap fun sid =>
    match env.sonar sid with
    | .ok ps => if ps = [] ∧ env.serperAvailable then some (.serperCall sid) else none
    | .error _ => none

/-- The `/products/aggregate` handler: validation, store resolution, cache
lookup, fan-out, grouping, cache write.  Returns the HTTP outcome (status
code on error) and the I/O effects performed.  A `cache.set_json` exception
is caught by the handler's generic `except Exception` and turned into a 500
response. -/
def aggregate_products (query zipcode : Str) (stores : Option Str)
    (enhance : Bool) (env : Env) : Except Nat AggResponse × List Effect :=
  if ¬ zipMatch zipcode then (.error 400, [])
  else
    let considered := consideredStores stores env
    match env.cached with
    | some cachedPayload =>
      let ns := match env.cachedTtl with
        | some t => decide (0 < t ∧ t < nearStaleBound)
        | none => false
      (.ok { payload := cachedPayload, cacheHit := true, nearStale := some ns },
       [.getNearby, .cacheGet, .cacheTtl])
    | none =>
      let offers := allOffers stores env
      let payload : AggPayload :=
        { query := query, zipcode := zipcode, stores_considered := considered,
          results := aggregateResults offers, source := str "aggregate(sonar)" }
      let effs := [Effect.getNearby, Effect.cacheGet]
        ++ considered.map Effect.sonarCall
        ++ serperEffects stores env ++ [Effect.cacheSet]
      if env.cacheSetRaises then (.error 500, effs)
      else (.ok { payload := payload, cacheHit := false, nearStale := none }, effs)

/-! ## Lookup into the grouped dict (for stating and proving the grouping
properties) -/

/-- First group stored under key `k` (the dict has at most one). -/
def findG (k : Str) : List (Str × OfferGroup) → Option OfferGroup
  | [] => none
  | kg :: rest => if kg.1 = k then some kg.2 else findG k rest

/-! ## Concrete inputs used by the counterexamples and witnesses -/

/-- Concrete sonar record for the C1 witness (store `target`). -/
def c1Prod1 : PyProduct :=
  { name := some (str "Oatly Oat-Milk"), brand := some (str "Oatly"),
    size := some (str "32 Fluid Ounces") }

/-- Concrete sonar record for the C1 witness (store `walmart`), spelled
differently but with the same normalized triple. -/
def c1Prod2 : PyProduct :=
  { name := some (str "oatly oat milk"), brand := some (str " OATLY "),
    size := some (str "32 fl oz") }

/-- Environment for the C1 witness: two stores, each returning one of the two
spellings. -/
def c1Env : Env :=
  { nearbyIds := [str "target", str "walmart"], cached := none,
    cachedTtl := none,
    sonar := fun sid => if sid = str "target" then .ok [c1Prod1] else .ok [c1Prod2],
    serperAvailable := false, serper := fun _ => .error (),
    cacheSetRaises := false }

/-- Offers from concrete inputs for the C2 counterexample: same normalized
triple, different non-empty image URLs. -/
def c2O1 : Offer :=
  { store_id := str "target", store_name := str "Target",
    name := some (str "Silk Original"), brand := some (str "Silk"),
    size := some (str "59 oz"), price := none, availability := none,
    image_url := some (str "https://a.example/a.jpg"), product_url := none,
    source := [str "perplexity_sonar"] }

/-- Second C2 offer, same group, image URL `https://b.example/b.jpg`. -/
def c2O2 : Offer :=
  { c2O1 with
    store_id := str "walmart", store_name := str "Walmart",
    image_url := some (str "https://b.example/b.jpg") }

/-- The single grouped entry produced by the two C2 offers. -/
def c2KG : Str × OfferGroup :=
  (offerKey c2O1,
   { canonical_product := canonOf c2O1,
     offers := [offerOut c2O1, offerOut c2O2] })

/-- Environment for the C3 counterexample: valid request, cache miss, and a
cache backend whose `set_json` raises. -/
def c3Env : Env :=
  { nearbyIds := [str "target"], cached := none, cachedTtl := none,
    sonar := fun _ => .ok [], serperAvailable := false,
    serper := fun _ => .error (), cacheSetRaises := true }

/-- C3's environment with the cache write succeeding. -/
def c3EnvOk : Env := { c3Env with cacheSetRaises := false }

/-- Sonar record returned by `target` in the C4 witness. -/
def c4ProdT : PyProduct := { name := some (str "Oatly Original") }

/-- Sonar record returned by `kroger` in the C4 witness. -/
def c4ProdK : PyProduct := { name := some (str "Silk Original") }

/-- Environment for the C4 witness: three candidate stores, `walmart` times
out. -/
def c4Env : Env :=
  { nearbyIds := [str "target", str "walmart", str "kroger"], cached := none,
    cachedTtl := none,
    sonar := fun sid =>
      if sid = str "walmart" then .error ()
      else if sid = str "target" then .ok [c4ProdT] else .ok [c4ProdK],
    serperAvailable := false, serper := fun _ => .error (),
    cacheSetRaises := false }

/-- A response echoing the current prompt template's IMAGE_URL placeholder
(`search_products`, line 126) verbatim. -/
def c5Input : Str :=
  str "PRODUCT: Foo\nIMAGE_URL: [Actual product image URL from store website, or \"N/A\" if not found]"

/-- Environment for the C6 counterexample. -/
def c6Env : Env :=
  { nearbyIds := [str "target"], cached := none, cachedTtl := none,
    sonar := fun _ => .ok [], serperAvailable := false,
    serper := fun _ => .error (), cacheSetRaises := false }

/-- A response with two sections carrying the same product name. -/
def c7Input : Str := str "PRODUCT: Oat Milk\n\nPRODUCT: Oat Milk"

/-- A store response repeating one store in two sections. -/
def c7StoreInput : Str := str "STORE: Walmart\n\nSTORE: Walmart\nSTATUS: closed"

/-- The single store record surviving C7's duplicate input. -/
def c7Store : StoreRec :=
  { store_id := str "walmart", store_name := str "Walmart",
    zipcode := str "60622", status := str "active" }

/-! ## Helper lemmas about the grouped dict -/

theorem contains_eq_findG_isSome (k : Str) (l : List (Str × OfferGroup)) :
    (l.map (·.1)).contains k = (findG k l).isSome := by
  induction l with
  | nil => simp [findG]
  | cons kg rest ih =>
    by_cases hk : kg.1 = k
    · simp [findG, hk]
    · have hb : (k == kg.1) = false := beq_eq_false_iff_ne.mpr (Ne.symm hk)
      simp only [List.map_cons, List.contains_cons, findG, if_neg hk, ih, hb,
        Bool.false_or]

theorem findG_append_left {k : Str} {l : List (Str × OfferGroup)}
    {g : OfferGroup} (h : findG k l = some g) (l' : List (Str × OfferGroup)) :
    findG k (l ++ l') = some g := by
  induction l with
  | nil => simp [findG] at h
  | cons kg rest ih =>
    by_cases hk : kg.1 = k
    · simp_all [findG]
    · simp only [findG, if_neg hk] at h
      simpa [findG, if_neg hk] using ih h

theorem findG_none_append {k : Str} {l : List (Str × OfferGroup)}
    (h : findG k l = none) (l' : List (Str × OfferGroup)) :
    findG k (l ++ l') = findG k l' := by
  induction l with
  | nil => simp
  | cons kg rest ih =>
    by_cases hk : kg.1 = k
    · simp [findG, hk] at h
    · simp only [findG, if_neg hk] at h
      simpa [findG, if_neg hk] using ih h

theorem findG_addOffer_map (k0 : Str) (o : Offer)
    (l : List (Str × OfferGroup)) :
    findG k0 (l.map fun kg =>
        if kg.1 = offerKey o then
          (kg.1, { kg.2 with offers := kg.2.offers ++ [offerOut o] })
        else kg) =
      if k0 = offerKey o then
        (findG k0 l).map fun g => { g with offers := g.offers ++ [offerOut o] }
      else findG k0 l := by
  induction l with
  | nil => by_cases h : k0 = offerKey o <;> simp [findG, h]
  | cons kg rest ih =>
    simp only [List.map_cons]
    by_cases h1 : kg.1 = offerKey o
    · rw [if_pos h1]
      by_cases h2 : kg.1 = k0
      · have h0 : k0 = offerKey o := h2 ▸ h1
        simp [findG, h2, h0]
      · by_cases hk0 : k0 = offerKey o
        · simp only [findG, if_neg h2, ih, if_pos hk0]
        · simp only [findG, if_neg h2, ih, if_neg hk0]
    · rw [if_neg h1]
      by_cases h2 : kg.1 = k0
      · have hk0 : ¬ k0 = offerKey o := fun hk => h1 (h2 ▸ hk ▸ rfl)
        simp [findG, h2, hk0]
      · by_cases hk0 : k0 = offerKey o
        · simp only [findG, if_neg h2, ih, if_pos hk0]
        · simp only [findG, if_neg h2, ih, if_neg hk0]

theorem addOffer_self (acc : List (Str × OfferGroup)) (o : Offer) :
    ∃ g, findG (offerKey o) (addOffer acc o) = some g ∧
      offerOut o ∈ g.offers := by
  simp only [addOffer, contains_eq_findG_isSome]
  cases hf : findG (offerKey o) acc with
  | none =>
    simp only [Option.isSome_none, Bool.false_eq_true, if_false]
    refine ⟨{ canonical_product := canonOf o, offers := [offerOut o] }, ?_, by simp⟩
    rw [findG_none_append hf]
    simp [findG]
  | some g =>
    simp only [Option.isSome_some, if_true]
    refine ⟨{ canonical_product := g.canonical_product,
              offers := g.offers ++ [offerOut o] }, ?_, by simp⟩
    rw [findG_addOffer_map, if_pos rfl, hf]
    rfl

theorem addOffer_preserve {acc : List (Str × OfferGroup)} {k : Str}
    {g : OfferGroup} {x : OfferOut} (o : Offer)
    (hf : findG k acc = some g) (hx : x ∈ g.offers) :
    ∃ g', findG k (addOffer acc o) = some g' ∧ x ∈ g'.offers := by
  simp only [addOffer, contains_eq_findG_isSome]
  cases hko : findG (offerKey o) acc with
  | none =>
    simp only [Option.isSome_none, Bool.false_eq_true, if_false]
    exact ⟨g, findG_append_left hf _, hx⟩
  | some g0 =>
    simp only [Option.isSome_some, if_true]
    by_cases hk : k = offerKey o
    · subst hk
      rw [hko] at hf
      cases hf
      refine ⟨{ canonical_product := g.canonical_product,
                offers := g.offers ++ [offerOut o] }, ?_, by simp [hx]⟩
      rw [findG_addOffer_map, if_pos rfl, hko]
      rfl
    · exact ⟨g, by rw [findG_addOffer_map, if_neg hk]; exact hf, hx⟩

theorem foldl_addOffer_mem (l : List Offer) (acc : List (Str × OfferGroup))
    (o : Offer)
    (h : o ∈ l ∨ ∃ g, findG (offerKey o) acc = some g ∧ offerOut o ∈ g.offers) :
    ∃ g, findG (offerKey o) (l.foldl addOffer acc) = some g ∧
      offerOut o ∈ g.offers := by
  induction l generalizing acc with
  | nil =>
    cases h with
    | inl h => cases h
    | inr h => simpa using h
  | cons x xs ih =>
    simp only [List.foldl_cons]
    cases h with
    | inl h =>
      cases List.mem_cons.1 h with
      | inl hox =>
        subst hox
        exact ih _ (Or.inr (addOffer_self acc o))
      | inr hoxs => exact ih _ (Or.inl hoxs)
    | inr h =>
      obtain ⟨g, hg, hx⟩ := h
      exact ih _ (Or.inr (addOffer_preserve x hg hx))

theorem mem_aggregate {offers : List Offer} {o : Offer} (h : o ∈ offers) :
    ∃ g, findG (offerKey o) (aggregate offers) = some g ∧
      offerOut o ∈ g.offers :=
  foldl_addOffer_mem offers [] o (Or.inl h)

theorem findG_mem_snd {k : Str} {l : List (Str × OfferGroup)} {g : OfferGroup}
    (h : findG k l = some g) : g ∈ l.map (·.2) := by
  induction l with
  | nil => simp [findG] at h
  | cons kg rest ih =>
    by_cases hk : kg.1 = k
    · simp only [findG, if_pos hk, Option.some.injEq] at h
      simp [← h]
    · simp only [findG, if_neg hk] at h
      simp [ih h]

/-! ## C1 -/

/-- C1: in one aggregation run (validated request, cache miss, successful
cache write), any two offers of `all_offers` whose normalized
(brand, name, size) triples agree — whichever store or source (sonar or
serper) produced them — are attached to the same canonical-product group of
the response's results. -/
theorem c1_equal_normalized_triples_same_group
    (query zipcode : Str) (stores : Option Str) (enh : Bool) (env : Env)
    (hzip : zipMatch zipcode = true) (hmiss : env.cached = none)
    (hset : env.cacheSetRaises = false) (o₁ o₂ : Offer)
    (h₁ : o₁ ∈ allOffers stores env) (h₂ : o₂ ∈ allOffers stores env)
    (hb : norm_text o₁.brand = norm_text o₂.brand)
    (hn : norm_name o₁.name = norm_name o₂.name)
    (hs : norm_size o₁.size = norm_size o₂.size) :
    ∃ resp, (aggregate_products query zipcode stores enh env).1 = .ok resp ∧
      ∃ g ∈ resp.payload.results,
        offerOut o₁ ∈ g.offers ∧ offerOut o₂ ∈ g.offers := by
  have hkey : offerKey o₁ = offerKey o₂ := by
    unfold offerKey
    rw [hb, hn, hs]
  obtain ⟨g, hg, hm1⟩ := mem_aggregate h₁
  obtain ⟨g₂, hg₂, hm2⟩ := mem_aggregate h₂
  rw [hkey] at hg
  have hgg : g = g₂ := Option.some.inj (hg.symm.trans hg₂)
  have hrun : (aggregate_products query zipcode stores enh env).1 =
      .ok { payload := { query := query, zipcode := zipcode,
                         stores_considered := consideredStores stores env,
                         results := aggregateResults (allOffers stores env),
                         source := str "aggregate(sonar)" },
            cacheHit := false, nearStale := none } := by
    simp [aggregate_products, hzip, hmiss, hset]
  refine ⟨_, hrun, g, ?_, hm1, hgg ▸ hm2⟩
  simpa [aggregateResults] using findG_mem_snd hg

/-- C1 witness: the two concretely spelled offers land in one group. -/
theorem c1_witness :
    ∃ resp, (aggregate_products (str "oat milk") (str "60622") none false
        c1Env).1 = .ok resp ∧
      ∃ g ∈ resp.payload.results,
        offerOut (mkSonarOffer (str "target") (to_store_name (str "target"))
          c1Prod1) ∈ g.offers ∧
        offerOut (mkSonarOffer (str "walmart") (to_store_name (str "walmart"))
          c1Prod2) ∈ g.offers :=
  c1_equal_normalized_triples_same_group (str "oat milk") (str "60622") none
    false c1Env (by decide) rfl rfl _ _ (by decide) (by decide) (by decide)
    (by decide) (by decide)

/-! ## C2 -/

theorem aggregate_concat (l : List Offer) (x : Offer) :
    aggregate (l ++ [x]) = addOffer (aggregate l) x := by
  simp [aggregate, List.foldl_append]

/-- C2 counterexample: the group holding both offers does not contain the
second offer's distinct non-empty image URL — `images` does not accumulate
across the group's offers. -/
theorem c2_counterexample :
    ∃ g ∈ aggregateResults [c2O1, c2O2],
      offerOut c2O2 ∈ g.offers ∧
      c2O2.image_url = some (str "https://b.example/b.jpg") ∧
      str "https://b.example/b.jpg" ≠ [] ∧
      str "https://b.example/b.jpg" ∉ g.canonical_product.images := by
  decide

/-- The images list created for a new group has at most one element. -/
theorem initImages_length (o : Offer) : (initImages o).length ≤ 1 := by
  unfold initImages
  cases o.image_url with
  | none => simp
  | some u =>
    by_cases hu : u ≠ [] <;> simp [hu]

/-- C2 amended: every group's canonical product (display name, brand, size,
and the whole `images` list) comes from the group's first-seen offer: the
offer at the least index whose group key equals the group's key.  `images` is
that offer's image URL alone (when non-empty), never accumulating later
offers' URLs, so it has at most one element. -/
theorem c2_amended_first_offer_canonical (offers : List Offer) :
    ∀ kg ∈ aggregate offers, ∃ i o, offers.get? i = some o ∧
      offerKey o = kg.1 ∧
      (∀ j, j < i → ∀ o', offers.get? j = some o' → offerKey o' ≠ kg.1) ∧
      kg.2.canonical_product =
        { name := o.name, brand := o.brand, size := o.size,
          images := initImages o } ∧
      kg.2.canonical_product.images.length ≤ 1 := by
  induction offers using List.reverseRecOn with
  | nil => intro kg hkg; simp [aggregate] at hkg
  | append_singleton l x ih =>
    have lift : ∀ kg', kg' ∈ aggregate l →
        ∃ i o, (l ++ [x]).get? i = some o ∧ offerKey o = kg'.1 ∧
          (∀ j, j < i → ∀ o', (l ++ [x]).get? j = some o' →
            offerKey o' ≠ kg'.1) ∧
          kg'.2.canonical_product =
            { name := o.name, brand := o.brand, size := o.size,
              images := initImages o } ∧
          kg'.2.canonical_product.images.length ≤ 1 := by
      intro kg' hkg'
      obtain ⟨i, o, hget, hko, hfirst, hcan, hlen⟩ := ih kg' hkg'
      obtain ⟨hi, -⟩ := List.get?_eq_some.1 hget
      refine ⟨i, o, ?_, hko, ?_, hcan, hlen⟩
      · rw [List.get?_append hi]
        exact hget
      · intro j hj o' hget'
        rw [List.get?_append (hj.trans hi)] at hget'
        exact hfirst j hj o' hget'
    intro kg hkg
    rw [aggregate_concat] at hkg
    simp only [addOffer, contains_eq_findG_isSome] at hkg
    cases hsome : (findG (offerKey x) (aggregate l)).isSome with
    | true =>
      rw [if_pos hsome] at hkg
      obtain ⟨kg₀, hkg₀, hkgeq⟩ := List.mem_map.1 hkg
      have hsame : kg.1 = kg₀.1 ∧
          kg.2.canonical_product = kg₀.2.canonical_product := by
        rw [← hkgeq]
        by_cases h : kg₀.1 = offerKey x <;> simp [h]
      obtain ⟨i, o, hget, hko, hfirst, hcan, hlen⟩ := lift kg₀ hkg₀
      exact ⟨i, o, hget, hsame.1 ▸ hko,
        fun j hj o' hg => hsame.1 ▸ hfirst j hj o' hg,
        hsame.2 ▸ hcan, hsame.2 ▸ hlen⟩
    | false =>
      rw [if_neg (by simp [hsome])] at hkg
      cases List.mem_append.1 hkg with
      | inl hmem => exact lift kg hmem
      | inr hnew =>
        have hkgx : kg = (offerKey x,
            { canonical_product := canonOf x, offers := [offerOut x] }) := by
          simpa using hnew
        subst hkgx
        refine ⟨l.length, x, List.get?_concat_length l x, rfl, ?_, ?_, ?_⟩
        · intro j hj o' hget' hkeq
          rw [List.get?_append hj] at hget'
          have ho' : o' ∈ l := List.get?_mem hget'
          obtain ⟨g, hg, -⟩ := mem_aggregate ho'
          rw [hkeq] at hg
          rw [hg] at hsome
          cases hsome
        · simp [canonOf]
        · simpa [canonOf] using initImages_length x

/-- C2 witness: the amended statement at the concrete two-offer input. -/
theorem c2_witness :
    ∃ i o, [c2O1, c2O2].get? i = some o ∧ offerKey o = c2KG.1 ∧
      (∀ j, j < i → ∀ o', [c2O1, c2O2].get? j = some o' →
        offerKey o' ≠ c2KG.1) ∧
      c2KG.2.canonical_product =
        { name := o.name, brand := o.brand, size := o.size,
          images := initImages o } ∧
      c2KG.2.canonical_product.images.length ≤ 1 :=
  c2_amended_first_offer_canonical [c2O1, c2O2] c2KG (by decide)

/-! ## C3 -/

/-- C3 counterexample: with a failing cache write, the caller receives a 500
error response, not the freshly computed aggregation result. -/
theorem c3_counterexample :
    (aggregate_products (str "milk") (str "60622") none false c3Env).1 =
      .error 500 := by
  rfl

/-- C3 amended: a `cache.set_json` exception propagates to the handler's
generic `except Exception` clause and becomes a 500 error response; the
freshly computed result reaches the caller exactly when the cache write does
not raise (which includes the no-op write of an unconfigured cache). -/
theorem c3_amended_cache_write_failure_500
    (query zipcode : Str) (stores : Option Str) (enh : Bool) (env : Env)
    (hzip : zipMatch zipcode = true) (hmiss : env.cached = none) :
    (env.cacheSetRaises = true →
      (aggregate_products query zipcode stores enh env).1 = .error 500) ∧
    (env.cacheSetRaises = false →
      (aggregate_products query zipcode stores enh env).1 =
        .ok { payload := { query := query, zipcode := zipcode,
                           stores_considered := consideredStores stores env,
                           results := aggregateResults (allOffers stores env),
                           source := str "aggregate(sonar)" },
              cacheHit := false, nearStale := none }) := by
  constructor <;> intro hset <;> simp [aggregate_products, hzip, hmiss, hset]

/-- C3 witness: with the concrete environment and a non-raising cache write,
the fresh result is returned. -/
theorem c3_witness :
    (aggregate_products (str "milk") (str "60622") none false c3EnvOk).1 =
      .ok { payload := { query := str "milk", zipcode := str "60622",
                         stores_considered := consideredStores none c3EnvOk,
                         results := aggregateResults (allOffers none c3EnvOk),
                         source := str "aggregate(sonar)" },
            cacheHit := false, nearStale := none } :=
  (c3_amended_cache_write_failure_500 (str "milk") (str "60622") none false
    c3EnvOk (by decide) rfl).2 rfl

/-! ## C4 -/

/-- C4: with a validated request, cache miss and successful cache write, the
call returns `.ok` (no error surfaced) even when some stores' sonar sub-tasks
fail; a failing store contributes zero offers, and every record of every
non-failing store appears as an offer in the grouped results. -/
theorem c4_partial_failure_isolation
    (query zipcode : Str) (stores : Option Str) (enh : Bool) (env : Env)
    (hzip : zipMatch zipcode = true) (hmiss : env.cached = none)
    (hset : env.cacheSetRaises = false) :
    ∃ resp, (aggregate_products query zipcode stores enh env).1 = .ok resp ∧
      (∀ sid, env.sonar sid = .error () → storeContrib env sid = []) ∧
      ∀ sid ∈ consideredStores stores env, ∀ ps, env.sonar sid = .ok ps →
        ∀ p ∈ ps, ∃ g ∈ resp.payload.results,
          offerOut (mkSonarOffer sid (to_store_name sid) p) ∈ g.offers := by
  have hrun : (aggregate_products query zipcode stores enh env).1 =
      .ok { payload := { query := query, zipcode := zipcode,
                         stores_considered := consideredStores stores env,
                         results := aggregateResults (allOffers stores env),
                         source := str "aggregate(sonar)" },
            cacheHit := false, nearStale := none } := by
    simp [aggregate_products, hzip, hmiss, hset]
  refine ⟨_, hrun, ?_, ?_⟩
  · intro sid herr
    simp [storeContrib, herr]
  · intro sid hsid ps hok p hp
    have hc : mkSonarOffer sid (to_store_name sid) p ∈ storeContrib env sid := by
      unfold storeContrib
      rw [hok]
      have hne : ps ≠ [] := by rintro rfl; cases hp
      simp only [hne, false_and, if_false]
      exact List.mem_map_of_mem _ hp
    have hmem : mkSonarOffer sid (to_store_name sid) p ∈ allOffers stores env :=
      List.mem_flatMap.2 ⟨sid, hsid, hc⟩
    obtain ⟨g, hg, hmm⟩ := mem_aggregate hmem
    exact ⟨g, by simpa [aggregateResults] using findG_mem_snd hg, hmm⟩

/-- C4 witness: three stores, one timing out; the call succeeds, the failing
store contributes nothing, and the two live stores' records all appear. -/
theorem c4_witness :
    ∃ resp, (aggregate_products (str "oat milk") (str "60622") none false
        c4Env).1 = .ok resp ∧
      (∀ sid, c4Env.sonar sid = .error () → storeContrib c4Env sid = []) ∧
      ∀ sid ∈ consideredStores none c4Env, ∀ ps, c4Env.sonar sid = .ok ps →
        ∀ p ∈ ps, ∃ g ∈ resp.payload.results,
          offerOut (mkSonarOffer sid (to_store_name sid) p) ∈ g.offers :=
  c4_partial_failure_isolation (str "oat milk") (str "60622") none false c4Env
    (by decide) rfl rfl

/-! ## C5 -/

/-- C5 (code bug): the parser materializes the current template's IMAGE_URL
placeholder as the record's `image_url`, because its filter tests the value
against an outdated placeholder string (and `N/A`) instead of the placeholder
the current template uses. -/
theorem c5_image_url_placeholder_materialized :
    parse_product_response c5Input =
      [{ name := some (str "Foo"),
         image_url := some (str "[Actual product image URL from store website, or \"N/A\" if not found]") }] := by
  decide

/-! ## C6 -/

/-- C6 amended: a request whose location key fails the handler's five-digit
regex check is rejected with a 400 client error before any I/O — no store
discovery, no cache read or write, no source-client call. -/
theorem c6_amended_invalid_zip_rejected_before_io
    (query zipcode : Str) (stores : Option Str) (enh : Bool) (env : Env)
    (h : zipMatch zipcode = false) :
    aggregate_products query zipcode stores enh env = (.error 400, []) := by
  simp [aggregate_products, h]

/-- C6 counterexample: an empty query with a valid zipcode is not rejected —
the call returns a success response and performs I/O (store discovery, cache
read, source call, cache write). -/
theorem c6_counterexample :
    (∃ resp, (aggregate_products [] (str "60622") none false c6Env).1 =
      .ok resp) ∧
    Effect.getNearby ∈ (aggregate_products [] (str "60622") none false
      c6Env).2 ∧
    Effect.cacheGet ∈ (aggregate_products [] (str "60622") none false
      c6Env).2 ∧
    Effect.cacheSet ∈ (aggregate_products [] (str "60622") none false
      c6Env).2 :=
  ⟨⟨_, rfl⟩, by decide, by decide, by decide⟩

/-- C6 witness: a malformed zipcode is rejected with 400 and no effects. -/
theorem c6_witness :
    aggregate_products (str "milk") (str "abc") none false c6Env =
      (.error 400, []) :=
  c6_amended_invalid_zip_rejected_before_io (str "milk") (str "abc") none
    false c6Env (by decide)

/-! ## C7 -/

/-- C7 counterexample: product parsing emits two records with the same
primary identifier (the product name) — no deduplication happens on the
product side. -/
theorem c7_counterexample :
    ¬ (parse_product_response c7Input).Pairwise
      (fun a b => a.name ≠ b.name) := by
  decide

theorem dedupStores_concat (l : List StoreRec) (x : StoreRec) :
    dedupStores (l ++ [x]) =
      if ((dedupStores l).map (·.store_id)).contains x.store_id then
        dedupStores l
      else dedupStores l ++ [x] := by
  simp [dedupStores, List.foldl_append]

theorem dedupStores_ids_complete (l : List StoreRec) :
    ∀ st ∈ l, st.store_id ∈ (dedupStores l).map (·.store_id) := by
  induction l using List.reverseRecOn with
  | nil => simp
  | append_singleton l x ih =>
    intro st hst
    rw [dedupStores_concat]
    by_cases hc : ((dedupStores l).map (·.store_id)).contains x.store_id = true
    · rw [if_pos hc]
      cases List.mem_append.1 hst with
      | inl h => exact ih st h
      | inr h =>
        have hx : st = x := by simpa using h
        subst hx
        simpa using hc
    · rw [if_neg hc]
      cases List.mem_append.1 hst with
      | inl h =>
        simp only [List.map_append]
        exact List.mem_append_left _ (ih st h)
      | inr h =>
        have hx : st = x := by simpa using h
        subst hx
        simp
  
theorem dedupStores_pairwise (l : List StoreRec) :
    (dedupStores l).Pairwise (fun a b => a.store_id ≠ b.store_id) := by
  induction l using List.reverseRecOn with
  | nil => simp [dedupStores]
  | append_singleton l x ih =>
    rw [dedupStores_concat]
    by_cases hc : ((dedupStores l).map (·.store_id)).contains x.store_id = true
    · rw [if_pos hc]
      exact ih
    · rw [if_neg hc]
      refine List.pairwise_append.2 ⟨ih, List.pairwise_singleton _ _, ?_⟩
      intro a ha b hb
      have hbx : b = x := by simpa using hb
      intro heq
      have hmem : x.store_id ∈ (dedupStores l).map (·.store_id) := by
        rw [← hbx, ← heq]
        exact List.mem_map_of_mem _ ha
      exact hc (by simpa using hmem)

theorem dedupStores_first (l : List StoreRec) :
    ∀ st ∈ dedupStores l, ∃ i, l.get? i = some st ∧
      ∀ j, j < i → ∀ st', l.get? j = some st' →
        st'.store_id ≠ st.store_id := by
  induction l using List.reverseRecOn with
  | nil => intro st h; simp [dedupStores] at h
  | append_singleton l x ih =>
    have lift : ∀ st', st' ∈ dedupStores l →
        ∃ i, (l ++ [x]).get? i = some st' ∧
          ∀ j, j < i → ∀ s2, (l ++ [x]).get? j = some s2 →
            s2.store_id ≠ st'.store_id := by
      intro st' h
      obtain ⟨i, hget, hfirst⟩ := ih st' h
      obtain ⟨hi, -⟩ := List.get?_eq_some.1 hget
      exact ⟨i, by rw [List.get?_append hi]; exact hget,
        fun j hj s2 hg =>
          hfirst j hj s2 (by rwa [List.get?_append (hj.trans hi)] at hg)⟩
    intro st hst
    rw [dedupStores_concat] at hst
    by_cases hc : ((dedupStores l).map (·.store_id)).contains x.store_id = true
    · rw [if_pos hc] at hst
      exact lift st hst
    · rw [if_neg hc] at hst
      cases List.mem_append.1 hst with
      | inl h => exact lift st h
      | inr h =>
        have hx : st = x := by simpa using h
        subst hx
        refine ⟨l.length, List.get?_concat_length l st, ?_⟩
        intro j hj s2 hget heq
        rw [List.get?_append hj] at hget
        have hmem := dedupStores_ids_complete l s2 (List.get?_mem hget)
        rw [heq] at hmem
        exact hc (by simpa using hmem)

/-- C7 amended: deduplication by primary identifier with the first occurrence
winning holds for store parsing (no two emitted stores share a `store_id`,
and each emitted store is the first record with its `store_id` in the
pre-dedup list); product parsing performs no deduplication (see the
counterexample). -/
theorem c7_amended_store_dedup_first_wins (response zipcode : Str) :
    (parse_store_response response zipcode).Pairwise
      (fun a b => a.store_id ≠ b.store_id) ∧
    ∀ st ∈ parse_store_response response zipcode,
      ∃ i, (rawStores response zipcode).get? i = some st ∧
        ∀ j, j < i → ∀ st', (rawStores response zipcode).get? j = some st' →
          st'.store_id ≠ st.store_id := by
  unfold parse_store_response
  exact ⟨dedupStores_pairwise _, dedupStores_first _⟩

/-- C7 witness: on the concrete duplicate input the store list is pairwise
distinct and the surviving record is the first occurrence. -/
theorem c7_witness :
    (parse_store_response c7StoreInput (str "60622")).Pairwise
      (fun a b => a.store_id ≠ b.store_id) ∧
    ∃ i, (rawStores c7StoreInput (str "60622")).get? i = some c7Store ∧
      ∀ j, j < i → ∀ st',
        (rawStores c7StoreInput (str "60622")).get? j = some st' →
          st'.store_id ≠ c7Store.store_id :=
  ⟨(c7_amended_store_dedup_first_wins c7StoreInput (str "60622")).1,
   (c7_amended_store_dedup_first_wins c7StoreInput (str "60622")).2 c7Store
     (by decide)⟩

/-! ## C8 -/

theorem lowerN_idem (x : Nat) : lowerN (lowerN x) = lowerN x := by
  by_cases h : 65 ≤ x ∧ x ≤ 90
  · simp only [lowerN, if_pos h]
    rw [if_neg (by omega)]
  · simp only [lowerN, if_neg h]

theorem mem_pyLower_lower_fixed {s : Str} {c : Nat} (h : c ∈ pyLower s) :
    lowerN c = c := by
  obtain ⟨x, -, rfl⟩ := List.mem_map.1 h
  exact lowerN_idem x

theorem pyReplace_single_cons (p : Nat) (rep : Str) (c : Nat) (cs : Str) :
    pyReplace [p] rep (c :: cs) =
      if p = c then rep ++ pyReplace [p] rep cs
      else c :: pyReplace [p] rep cs := by
  by_cases h : p = c
  · simp [pyReplace, pyReplaceFuel, List.isPrefixOf, h]
  · simp [pyReplace, pyReplaceFuel, List.isPrefixOf, h,
      fun hh : c = p => h hh.symm]

theorem mem_pyReplace_single {p : Nat} {rep s : Str} {c : Nat}
    (h : c ∈ pyReplace [p] rep s) : c ∈ rep ∨ c ∈ s := by
  induction s with
  | nil => simp [pyReplace, pyReplaceFuel] at h
  | cons x xs ih =>
    rw [pyReplace_single_cons] at h
    by_cases hp : p = x
    · rw [if_pos hp] at h
      cases List.mem_append.1 h with
      | inl hr => exact Or.inl hr
      | inr hs => cases ih hs with
        | inl hr => exact Or.inl hr
        | inr hs2 => exact Or.inr (List.mem_cons_of_mem _ hs2)
    · rw [if_neg hp] at h
      cases List.mem_cons.1 h with
      | inl hx => exact Or.inr (hx ▸ List.mem_cons_self x xs)
      | inr hs => cases ih hs with
        | inl hr => exact Or.inl hr
        | inr hs2 => exact Or.inr (List.mem_cons_of_mem _ hs2)

theorem pyReplace_single_of_not_mem {p : Nat} {rep s : Str} (h : p ∉ s) :
    pyReplace [p] rep s = s := by
  induction s with
  | nil => simp [pyReplace, pyReplaceFuel]
  | cons x xs ih =>
    rw [pyReplace_single_cons,
      if_neg (fun (hp : p = x) =>
        h (by rw [hp]; exact List.mem_cons_self x xs)),
      ih (fun hm => h (List.mem_cons_of_mem _ hm))]

theorem filter_eq_self_of_all {α : Type} (p : α → Bool) (l : List α)
    (h : ∀ a ∈ l, p a = true) : l.filter p = l := by
  induction l with
  | nil => rfl
  | cons x xs ih =>
    rw [List.filter_cons, if_pos (h x (List.mem_cons_self x xs)),
      ih (fun a ha => h a (List.mem_cons_of_mem _ ha))]

theorem map_eq_self_of_fixed (f : Nat → Nat) (l : Str)
    (h : ∀ a ∈ l, f a = a) : l.map f = l := by
  induction l with
  | nil => rfl
  | cons x xs ih =>
    rw [List.map_cons, h x (List.mem_cons_self x xs),
      ih (fun a ha => h a (List.mem_cons_of_mem _ ha))]

theorem pySplit_single_cons (p c : Nat) (cs : Str) :
    pySplit [p] (c :: cs) =
      if p = c then [] :: pySplit [p] cs
      else match pySplit [p] cs with
        | [] => [[c]]
        | q :: qs => (c :: q) :: qs := by
  by_cases h : p = c
  · simp [pySplit, pySplitFuel, List.isPrefixOf, h]
  · simp [pySplit, pySplitFuel, List.isPrefixOf, h,
      fun hh : c = p => h hh.symm]

theorem mem_pySplit_single {p : Nat} {s : Str} {piece : Str}
    (h : piece ∈ pySplit [p] s) : p ∉ piece ∧ ∀ c ∈ piece, c ∈ s := by
  induction s generalizing piece with
  | nil =>
    simp only [pySplit, pySplitFuel, List.mem_singleton] at h
    subst h
    exact ⟨by simp, by simp⟩
  | cons x xs ih =>
    rw [pySplit_single_cons] at h
    by_cases hp : p = x
    · rw [if_pos hp] at h
      cases List.mem_cons.1 h with
      | inl hpiece => subst hpiece; exact ⟨by simp, by simp⟩
      | inr hmem =>
        obtain ⟨h1, h2⟩ := ih hmem
        exact ⟨h1, fun c hc => List.mem_cons_of_mem _ (h2 c hc)⟩
    · rw [if_neg hp] at h
      cases hsplit : pySplit [p] xs with
      | nil => rw [hsplit] at h; simp at h; subst h; simp_all
      | cons q qs =>
        rw [hsplit] at h
        cases List.mem_cons.1 h with
        | inl hpiece =>
          subst hpiece
          obtain ⟨h1, h2⟩ := ih (hsplit ▸ List.mem_cons_self q qs)
          refine ⟨?_, ?_⟩
          · intro hmem
            cases List.mem_cons.1 hmem with
            | inl hx => exact hp hx
            | inr hq => exact h1 hq
          · intro c hc
            cases List.mem_cons.1 hc with
            | inl hx => exact hx ▸ List.mem_cons_self x xs
            | inr hq => exact List.mem_cons_of_mem _ (h2 c hq)
        | inr hqs =>
          obtain ⟨h1, h2⟩ := ih (hsplit ▸ List.mem_cons_of_mem q hqs)
          exact ⟨h1, fun c hc => List.mem_cons_of_mem _ (h2 c hc)⟩

theorem pySplit_single_of_not_mem {p : Nat} {s : Str} (h : p ∉ s) :
    pySplit [p] s = [s] := by
  induction s with
  | nil => simp [pySplit, pySplitFuel]
  | cons x xs ih =>
    rw [pySplit_single_cons,
      if_neg (fun (hp : p = x) =>
        h (by rw [hp]; exact List.mem_cons_self x xs)),
      ih (fun hm => h (List.mem_cons_of_mem _ hm))]

theorem pySplit_single_append (p : Nat) (pc t : Str) (h : p ∉ pc) :
    pySplit [p] (pc ++ p :: t) = pc :: pySplit [p] t := by
  induction pc with
  | nil => simp [pySplit_single_cons]
  | cons c cs ih =>
    have hpc : p ≠ c := fun hp => h (hp ▸ List.mem_cons_self c cs)
    rw [List.cons_append, pySplit_single_cons, if_neg hpc,
      ih (fun hm => h (List.mem_cons_of_mem _ hm))]

theorem mem_pyJoin {sep : Str} {parts : List Str} {c : Nat}
    (h : c ∈ pyJoin sep parts) : c ∈ sep ∨ ∃ pc ∈ parts, c ∈ pc := by
  induction parts with
  | nil => simp [pyJoin] at h
  | cons pc rest ih =>
    cases rest with
    | nil =>
      simp only [pyJoin] at h
      exact Or.inr ⟨pc, List.mem_cons_self _ _, h⟩
    | cons pc2 rest2 =>
      simp only [pyJoin, List.append_assoc, List.mem_append] at h
      rcases h with h1 | h2 | h3
      · exact Or.inr ⟨pc, List.mem_cons_self _ _, h1⟩
      · exact Or.inl h2
      · cases ih h3 with
        | inl hs => exact Or.inl hs
        | inr hex =>
          obtain ⟨q, hq, hc⟩ := hex
          exact Or.inr ⟨q, List.mem_cons_of_mem _ hq, hc⟩

theorem pySplit_pyJoin_roundtrip (parts : List Str)
    (hne : ∀ pc ∈ parts, pc ≠ []) (hfree : ∀ pc ∈ parts, (95 : Nat) ∉ pc) :
    pySplit [95] (pyJoin [95] parts) =
      if parts = [] then [[]] else parts := by
  induction parts with
  | nil => simp [pyJoin, pySplit, pySplitFuel]
  | cons pc rest ih =>
    cases rest with
    | nil =>
      simp only [pyJoin, if_neg (by simp : ¬(([pc] : List Str) = []))]
      exact pySplit_single_of_not_mem (hfree pc (List.mem_cons_self _ _))
    | cons pc2 rest2 =>
      have hjoin : pyJoin [95] (pc :: pc2 :: rest2) =
          pc ++ 95 :: pyJoin [95] (pc2 :: rest2) := by
        simp [pyJoin]
      rw [hjoin,
        pySplit_single_append 95 pc _ (hfree pc (List.mem_cons_self _ _)),
        ih (fun q hq => hne q (List.mem_cons_of_mem _ hq))
          (fun q hq => hfree q (List.mem_cons_of_mem _ hq)),
        if_neg (by simp)]
      simp

/-- `create_store_id` written with its codepoint literals normalized. -/
theorem create_store_id_normalized (t : Str) :
    create_store_id t =
      pyJoin [95] ((pySplit [95]
        ((pyReplace [38] [97, 110, 100]
          (pyReplace [39] []
            (pyReplace [45] [95]
              (pyReplace [32] [95] (pyLower t))))).filter
          (fun ch => isAlnumN ch || ch = 95))).filter (· ≠ [])) := rfl

/-- Every character of a slug is a lowercase-fixed alphanumeric or an
underscore. -/
theorem slug_chars (s : Str) :
    ∀ c ∈ create_store_id s, (isAlnumN c || c = 95) = true ∧ lowerN c = c := by
  intro c hc
  rw [create_store_id_normalized] at hc
  have hl1 : ∀ x ∈ pyLower s, lowerN x = x := fun x hx =>
    mem_pyLower_lower_fixed hx
  have hl2 : ∀ x ∈ pyReplace [32] [95] (pyLower s), lowerN x = x := by
    intro x hx
    rcases mem_pyReplace_single hx with h | h
    · simp only [List.mem_singleton] at h
      subst h
      decide
    · exact hl1 x h
  have hl3 : ∀ x ∈ pyReplace [45] [95] (pyReplace [32] [95] (pyLower s)),
      lowerN x = x := by
    intro x hx
    rcases mem_pyReplace_single hx with h | h
    · simp only [List.mem_singleton] at h
      subst h
      decide
    · exact hl2 x h
  have hl4 : ∀ x ∈ pyReplace [39] []
      (pyReplace [45] [95] (pyReplace [32] [95] (pyLower s))),
      lowerN x = x := by
    intro x hx
    rcases mem_pyReplace_single hx with h | h
    · cases h
    · exact hl3 x h
  have hl5 : ∀ x ∈ pyReplace [38] [97, 110, 100] (pyReplace [39] []
      (pyReplace [45] [95] (pyReplace [32] [95] (pyLower s)))),
      lowerN x = x := by
    intro x hx
    rcases mem_pyReplace_single hx with h | h
    · simp only [List.mem_cons, List.not_mem_nil, or_false] at h
      rcases h with rfl | rfl | rfl <;> decide
    · exact hl4 x h
  rcases mem_pyJoin hc with hrep | ⟨pc, hpc, hcpc⟩
  · simp only [List.mem_singleton] at hrep
    subst hrep
    exact ⟨by decide, by decide⟩
  · have hpc' := (List.mem_filter.1 hpc).1
    have hc6 := (mem_pySplit_single hpc').2 c hcpc
    have hgf := List.mem_filter.1 hc6
    exact ⟨hgf.2, hl5 c hgf.1⟩

/-- C8: the store-id slug is idempotent (determinism is definitional: the
slug is a pure function). -/
theorem c8_slug_idempotent (s : Str) :
    create_store_id (create_store_id s) = create_store_id s := by
  have hchars := slug_chars s
  have hnm : ∀ p : Nat, (isAlnumN p || p = 95) = false →
      p ∉ create_store_id s := by
    intro p hp hmem
    rw [(hchars p hmem).1] at hp
    cases hp
  have h1 : pyLower (create_store_id s) = create_store_id s :=
    map_eq_self_of_fixed lowerN _ (fun a ha => (hchars a ha).2)
  have h2 : pyReplace [32] [95] (create_store_id s) = create_store_id s :=
    pyReplace_single_of_not_mem (hnm 32 (by decide))
  have h3 : pyReplace [45] [95] (create_store_id s) = create_store_id s :=
    pyReplace_single_of_not_mem (hnm 45 (by decide))
  have h4 : pyReplace [39] [] (create_store_id s) = create_store_id s :=
    pyReplace_single_of_not_mem (hnm 39 (by decide))
  have h5 : pyReplace [38] [97, 110, 100] (create_store_id s) =
      create_store_id s :=
    pyReplace_single_of_not_mem (hnm 38 (by decide))
  have h6 : (create_store_id s).filter (fun ch => isAlnumN ch || ch = 95) =
      create_store_id s :=
    filter_eq_self_of_all _ _ (fun a ha => (hchars a ha).1)
  have hform : create_store_id s = pyJoin [95] ((pySplit [95]
      ((pyReplace [38] [97, 110, 100]
        (pyReplace [39] []
          (pyReplace [45] [95]
            (pyReplace [32] [95] (pyLower s))))).filter
        (fun ch => isAlnumN ch || ch = 95))).filter (· ≠ [])) :=
    create_store_id_normalized s
  set parts0 : List Str := (pySplit [95]
      ((pyReplace [38] [97, 110, 100]
        (pyReplace [39] []
          (pyReplace [45] [95]
            (pyReplace [32] [95] (pyLower s))))).filter
        (fun ch => isAlnumN ch || ch = 95))).filter (· ≠ []) with hparts0
  have hne : ∀ pc ∈ parts0, pc ≠ [] := by
    intro pc hpc
    have := (List.mem_filter.1 hpc).2
    simpa using this
  have hfree : ∀ pc ∈ parts0, (95 : Nat) ∉ pc := fun pc hpc =>
    (mem_pySplit_single (List.mem_filter.1 hpc).1).1
  have hsplitjoin : (pySplit [95] (create_store_id s)).filter (· ≠ []) =
      parts0 := by
    rw [hform, pySplit_pyJoin_roundtrip parts0 hne hfree]
    by_cases hp0 : parts0 = []
    · rw [if_pos hp0, hp0]
      rfl
    · rw [if_neg hp0]
      exact filter_eq_self_of_all _ _ (fun pc hpc => by
        simpa using hne pc hpc)
  calc create_store_id (create_store_id s)
      = pyJoin [95] ((pySplit [95]
          ((pyReplace [38] [97, 110, 100]
            (pyReplace [39] []
              (pyReplace [45] [95]
                (pyReplace [32] [95]
                  (pyLower (create_store_id s)))))).filter
            (fun ch => isAlnumN ch || ch = 95))).filter (· ≠ [])) :=
        create_store_id_normalized _
    _ = pyJoin [95] ((pySplit [95] (create_store_id s)).filter (· ≠ [])) := by
        rw [h1, h2, h3, h4, h5, h6]
    _ = pyJoin [95] parts0 := by rw [hsplitjoin]
    _ = create_store_id s := hform.symm

/-! ## C9 -/

theorem procProduct_name (st : PyProduct) (line : Str)
    (h : st.name = none ∨ ∃ n, st.name = some n ∧ n ≠ []) :
    (procProduct st line).name = none ∨
      ∃ n, (procProduct st line).name = some n ∧ n ≠ [] := by
  simp only [procProduct]
  split
  · next hcond => exact Or.inr ⟨_, rfl, hcond.1⟩
  · exact h

theorem procBrand_name (st : PyProduct) (line : Str) :
    (procBrand st line).name = st.name := by
  simp only [procBrand]
  split <;> rfl

theorem procPrice_name (st : PyProduct) (line : Str) :
    (procPrice st line).name = st.name := by
  simp only [procPrice]
  split <;> rfl

theorem procSize_name (st : PyProduct) (line : Str) :
    (procSize st line).name = st.name := by
  simp only [procSize]
  split <;> rfl

theorem procCategory_name (st : PyProduct) (line : Str) :
    (procCategory st line).name = st.name := by
  simp only [procCategory]
  split <;> rfl

theorem procAvailability_name (st : PyProduct) (line : Str) :
    (procAvailability st line).name = st.name := by
  simp only [procAvailability]
  split <;> rfl

theorem procDescription_name (st : PyProduct) (line : Str) :
    (procDescription st line).name = st.name := by
  simp only [procDescription]
  split <;> rfl

theorem procImage_name (st : PyProduct) (line : Str) :
    (procImage st line).name = st.name := by
  simp only [procImage]
  split <;> rfl

theorem procDeals_name (st : PyProduct) (line : Str) :
    (procDeals st line).name = st.name := by
  simp only [procDeals]
  split <;> rfl

theorem dealsTail_name (st : PyProduct) (line : Str) :
    (dealsTail st line).name = st.name := by
  unfold dealsTail
  split
  · exact procDeals_name st line
  · rfl

theorem urlOrDeals_name (st : PyProduct) (line : Str) :
    (urlOrDeals st line).name = st.name := by
  unfold urlOrDeals
  split
  · split
    · rfl
    · exact dealsTail_name _ _
  · exact dealsTail_name _ _

theorem prodLineStep_name (st : PyProduct) (rawLine : Str)
    (h : st.name = none ∨ ∃ n, st.name = some n ∧ n ≠ []) :
    (prodLineStep st rawLine).name = none ∨
      ∃ n, (prodLineStep st rawLine).name = some n ∧ n ≠ [] := by
  simp only [prodLineStep]
  by_cases h0 : pyStrip rawLine = []
  · rw [if_pos h0]
    exact h
  rw [if_neg h0]
  by_cases h1 : pyStartswith (str "PRODUCT:") (pyStrip rawLine) = true
  · rw [if_pos h1]
    exact procProduct_name _ _ h
  rw [if_neg h1]
  by_cases h2 : pyStartswith (str "BRAND:") (pyStrip rawLine) = true
  · rw [if_pos h2, procBrand_name]
    exact h
  rw [if_neg h2]
  by_cases h3 : pyStartswith (str "PRICE:") (pyStrip rawLine) = true
  · rw [if_pos h3, procPrice_name]
    exact h
  rw [if_neg h3]
  by_cases h4 : pyStartswith (str "SIZE:") (pyStrip rawLine) = true
  · rw [if_pos h4, procSize_name]
    exact h
  rw [if_neg h4]
  by_cases h5 : pyStartswith (str "CATEGORY:") (pyStrip rawLine) = true
  · rw [if_pos h5, procCategory_name]
    exact h
  rw [if_neg h5]
  by_cases h6 : pyStartswith (str "AVAILABILITY:") (pyStrip rawLine) = true
  · rw [if_pos h6, procAvailability_name]
    exact h
  rw [if_neg h6]
  by_cases h7 : pyStartswith (str "DESCRIPTION:") (pyStrip rawLine) = true
  · rw [if_pos h7, procDescription_name]
    exact h
  rw [if_neg h7]
  by_cases h8 : pyStartswith (str "IMAGE_URL:") (pyStrip rawLine) = true
  · rw [if_pos h8, procImage_name]
    exact h
  rw [if_neg h8, urlOrDeals_name]
  exact h

theorem foldl_prodLineStep_name (lines : List Str) (st0 : PyProduct)
    (h0 : st0.name = none ∨ ∃ n, st0.name = some n ∧ n ≠ []) :
    (lines.foldl prodLineStep st0).name = none ∨
      ∃ n, (lines.foldl prodLineStep st0).name = some n ∧ n ≠ [] := by
  induction lines generalizing st0 with
  | nil => exact h0
  | cons l ls ih => exact ih _ (prodLineStep_name _ _ h0)

theorem prodSection_good (acc : List PyProduct) (sec : Str)
    (hacc : ∀ p ∈ acc, ∃ n, p.name = some n ∧ n ≠ []) :
    ∀ p ∈ prodSection acc sec, ∃ n, p.name = some n ∧ n ≠ [] := by
  intro p hp
  simp only [prodSection] at hp
  split at hp
  · rename_i hname
    cases List.mem_append.1 hp with
    | inl hin => exact hacc p hin
    | inr hlast =>
      have hpeq : p = (pySplit (str "\n") (pyStrip sec)).foldl prodLineStep
          {} := by simpa using hlast
      subst hpeq
      cases foldl_prodLineStep_name _ {} (Or.inl rfl) with
      | inl hnone => exact absurd hnone hname
      | inr hgood => exact hgood
  · exact hacc p hp

theorem patName_good (p : PyProduct) (line : Str) (hl : line ≠ [])
    (h : p.name = none ∨ ∃ n, p.name = some n ∧ n ≠ []) :
    (patName p line).name = none ∨
      ∃ n, (patName p line).name = some n ∧ n ≠ [] := by
  unfold patName
  split
  · exact Or.inr ⟨line, rfl, hl⟩
  · exact h

theorem patUrlTail_name (p : PyProduct) (line : Str) :
    (patUrlTail p line).name = p.name := by
  unfold patUrlTail
  repeat' split
  all_goals rfl

theorem patLineStep_good (st : List PyProduct × PyProduct) (rawLine : Str)
    (h : (∀ p ∈ st.1, ∃ n, p.name = some n ∧ n ≠ []) ∧
      (st.2.name = none ∨ ∃ n, st.2.name = some n ∧ n ≠ [])) :
    (∀ p ∈ (patLineStep st rawLine).1, ∃ n, p.name = some n ∧ n ≠ []) ∧
      ((patLineStep st rawLine).2.name = none ∨
        ∃ n, (patLineStep st rawLine).2.name = some n ∧ n ≠ []) := by
  simp only [patLineStep]
  repeat' split
  all_goals first
    | exact h
    | (refine ⟨h.1, patName_good _ _ (by assumption) h.2⟩)
    | (refine ⟨h.1, ?_⟩; first
        | (show (patPrice _ _).name = _ ∨ _; exact h.2)
        | (show (patAvail _ _).name = _ ∨ _; exact h.2)
        | (show (patDeals _ _).name = _ ∨ _; exact h.2)
        | (show (patSize _ _).name = _ ∨ _; exact h.2)
        | (show (patImg _ _).name = _ ∨ _; exact h.2)
        | (rw [patUrlTail_name]; exact h.2))
    | (rename_i hname
       refine ⟨?_, Or.inl rfl⟩
       intro p hp
       cases List.mem_append.1 hp with
       | inl hin => exact h.1 p hin
       | inr hlast =>
         have hpeq : p = st.2 := by simpa using hlast
         subst hpeq
         rcases h.2 with hnone | hgood
         · exact absurd hnone hname
         · exact hgood)

theorem storeAddressUpd_name (line : Str) (cur : StoreRec) :
    (storeAddressUpd line cur).store_name = cur.store_name := by
  simp only [storeAddressUpd]
  split <;> rfl

theorem storeServicesUpd_name (line : Str) (cur : StoreRec) :
    (storeServicesUpd line cur).store_name = cur.store_name := by
  simp only [storeServicesUpd]
  split
  · split <;> rfl
  · rfl

theorem storeWebsiteUpd_name (line : Str) (cur : StoreRec) :
    (storeWebsiteUpd line cur).store_name = cur.store_name := by
  simp only [storeWebsiteUpd]
  split <;> rfl

theorem storeStatusUpd_name (line : Str) (cur : StoreRec) :
    (storeStatusUpd line cur).store_name = cur.store_name := by
  simp only [storeStatusUpd]
  split <;> rfl

theorem mapUpd_good (f : StoreRec → StoreRec)
    (hf : ∀ cur, (f cur).store_name = cur.store_name)
    (o : Option StoreRec) (h : ∀ c, o = some c → c.store_name ≠ []) :
    ∀ c, o.map f = some c → c.store_name ≠ [] := by
  intro c hc
  cases o with
  | none => cases hc
  | some cur =>
    have : f cur = c := by simpa using hc
    rw [← this, hf]
    exact h cur rfl

theorem storeOpen_good (zipcode : Str) (st : List StoreRec × Option StoreRec)
    (line : Str)
    (h : (∀ s ∈ st.1, s.store_name ≠ []) ∧
      (∀ c, st.2 = some c → c.store_name ≠ [])) :
    (∀ s ∈ (storeOpen zipcode st line).1, s.store_name ≠ []) ∧
      (∀ c, (storeOpen zipcode st line).2 = some c → c.store_name ≠ []) := by
  simp only [storeOpen]
  split
  · next hcond =>
    constructor
    · intro s hs
      cases hst2 : st.2 with
      | none =>
        rw [hst2] at hs
        exact h.1 s hs
      | some cur =>
        rw [hst2] at hs
        cases List.mem_append.1 hs with
        | inl hin => exact h.1 s hin
        | inr hlast =>
          have : s = cur := by simpa using hlast
          subst this
          exact h.2 s hst2
    · intro c hc
      have hrec := Option.some.inj hc
      rw [← hrec]
      exact hcond.1
  · exact h

theorem storeLineStep_good (zipcode : Str)
    (st : List StoreRec × Option StoreRec) (rawLine : Str)
    (h : (∀ s ∈ st.1, s.store_name ≠ []) ∧
      (∀ c, st.2 = some c → c.store_name ≠ [])) :
    (∀ s ∈ (storeLineStep zipcode st rawLine).1, s.store_name ≠ []) ∧
      (∀ c, (storeLineStep zipcode st rawLine).2 = some c →
        c.store_name ≠ []) := by
  simp only [storeLineStep]
  by_cases h0 : pyStrip rawLine = []
  · rw [if_pos h0]
    exact h
  rw [if_neg h0]
  by_cases h1 : pyStartswith (str "STORE:") (pyStrip rawLine) = true
  · rw [if_pos h1]
    exact storeOpen_good zipcode st _ h
  rw [if_neg h1]
  by_cases h2 : pyStartswith (str "ADDRESS:") (pyStrip rawLine) = true ∧
      st.2.isSome = true
  · rw [if_pos h2]
    exact ⟨h.1, mapUpd_good _ (storeAddressUpd_name _) st.2 h.2⟩
  rw [if_neg h2]
  by_cases h3 : pyStartswith (str "SERVICES:") (pyStrip rawLine) = true ∧
      st.2.isSome = true
  · rw [if_pos h3]
    exact ⟨h.1, mapUpd_good _ (storeServicesUpd_name _) st.2 h.2⟩
  rw [if_neg h3]
  by_cases h4 : pyStartswith (str "WEBSITE:") (pyStrip rawLine) = true ∧
      st.2.isSome = true
  · rw [if_pos h4]
    exact ⟨h.1, mapUpd_good _ (storeWebsiteUpd_name _) st.2 h.2⟩
  rw [if_neg h4]
  by_cases h5 : pyStartswith (str "STATUS:") (pyStrip rawLine) = true ∧
      st.2.isSome = true
  · rw [if_pos h5]
    exact ⟨h.1, mapUpd_good _ (storeStatusUpd_name _) st.2 h.2⟩
  rw [if_neg h5]
  exact h

theorem storeSection_good (zipcode : Str) (acc : List StoreRec) (sec : Str)
    (hacc : ∀ s ∈ acc, s.store_name ≠ []) :
    ∀ s ∈ storeSection zipcode acc sec, s.store_name ≠ [] := by
  have hfold : ∀ (lines : List Str) (st0 : List StoreRec × Option StoreRec),
      ((∀ s ∈ st0.1, s.store_name ≠ []) ∧
        (∀ c, st0.2 = some c → c.store_name ≠ [])) →
      (∀ s ∈ (lines.foldl (storeLineStep zipcode) st0).1,
        s.store_name ≠ []) ∧
        (∀ c, (lines.foldl (storeLineStep zipcode) st0).2 = some c →
          c.store_name ≠ []) := by
    intro lines
    induction lines with
    | nil => intro st0 h0; exact h0
    | cons l ls ih => intro st0 h0; exact ih _ (storeLineStep_good _ _ _ h0)
  intro s hs
  simp only [storeSection] at hs
  split at hs
  · next cur heq =>
    have hh := hfold (pySplit (str "\n") (pyStrip sec)) (acc, none)
      ⟨hacc, by simp⟩
    cases List.mem_append.1 hs with
    | inl hin => exact hh.1 s hin
    | inr hlast =>
      have : s = cur := by simpa using hlast
      subst this
      exact hh.2 s heq
  · exact (hfold (pySplit (str "\n") (pyStrip sec)) (acc, none)
      ⟨hacc, by simp⟩).1 s hs

theorem foldl_patLineStep_good (lines : List Str)
    (st0 : List PyProduct × PyProduct)
    (h0 : (∀ p ∈ st0.1, ∃ n, p.name = some n ∧ n ≠ []) ∧
      (st0.2.name = none ∨ ∃ n, st0.2.name = some n ∧ n ≠ [])) :
    (∀ p ∈ (lines.foldl patLineStep st0).1,
      ∃ n, p.name = some n ∧ n ≠ []) ∧
      ((lines.foldl patLineStep st0).2.name = none ∨
        ∃ n, (lines.foldl patLineStep st0).2.name = some n ∧ n ≠ []) := by
  induction lines generalizing st0 with
  | nil => exact h0
  | cons l ls ih => exact ih _ (patLineStep_good _ _ h0)

theorem parse_products_by_patterns_good (s : Str) :
    ∀ p ∈ parse_products_by_patterns s, ∃ n, p.name = some n ∧ n ≠ [] := by
  intro p hp
  simp only [parse_products_by_patterns] at hp
  have hfold := foldl_patLineStep_good (pySplit (str "\n") s) ([], {})
    ⟨by simp, Or.inl rfl⟩
  split at hp
  · rename_i hname
    cases List.mem_append.1 hp with
    | inl hin => exact hfold.1 p hin
    | inr hlast =>
      have hpeq : p = ((pySplit (str "\n") s).foldl patLineStep ([], {})).2 :=
        by simpa using hlast
      subst hpeq
      cases hfold.2 with
      | inl hnone => exact absurd hnone hname
      | inr hgood => exact hgood
  · exact hfold.1 p hp

theorem parse_product_response_good (s : Str) :
    ∀ p ∈ parse_product_response s, ∃ n, p.name = some n ∧ n ≠ [] := by
  intro p hp
  simp only [parse_product_response] at hp
  split at hp
  · cases hp
  · split at hp
    · exact parse_products_by_patterns_good s p hp
    · have hfold : ∀ (secs : List Str) (acc : List PyProduct),
          (∀ q ∈ acc, ∃ n, q.name = some n ∧ n ≠ []) →
          ∀ q ∈ secs.foldl prodSection acc,
            ∃ n, q.name = some n ∧ n ≠ [] := by
        intro secs
        induction secs with
        | nil => intro acc hacc; exact hacc
        | cons sc scs ih =>
          intro acc hacc
          exact ih _ (prodSection_good acc sc hacc)
      exact hfold _ [] (by simp) p hp

theorem extract_structured_core_good (response zipcode : Str) :
    ∀ s ∈ extract_structured_core response zipcode, s.store_name ≠ [] := by
  have hfold : ∀ (secs : List Str) (acc : List StoreRec),
      (∀ s ∈ acc, s.store_name ≠ []) →
      ∀ s ∈ secs.foldl (storeSection zipcode) acc, s.store_name ≠ [] := by
    intro secs
    induction secs with
    | nil => intro acc hacc; exact hacc
    | cons sc scs ih =>
      intro acc hacc
      exact ih _ (storeSection_good zipcode acc sc hacc)
  intro s hs
  exact hfold _ [] (by simp) s hs

theorem extract_stores_by_patterns_good (text zipcode : Str) :
    ∀ s ∈ extract_stores_by_patterns text zipcode, s.store_name ≠ [] := by
  intro s hs
  simp only [extract_stores_by_patterns] at hs
  obtain ⟨nm, hnm, hval⟩ := List.mem_filterMap.1 hs
  split at hval
  · have hrec := Option.some.inj hval
    rw [← hrec]
    have hcat : ∀ x ∈ storeCatalog, x ≠ ([] : Str) := by decide
    exact hcat nm hnm
  · cases hval

theorem dedupStores_subset (l : List StoreRec) :
    ∀ st ∈ dedupStores l, st ∈ l := by
  intro st hst
  obtain ⟨i, hget, -⟩ := dedupStores_first l st hst
  exact List.get?_mem hget

theorem rawStores_good (response zipcode : Str) :
    ∀ s ∈ rawStores response zipcode, s.store_name ≠ [] := by
  intro s hs
  simp only [rawStores, extract_structured_stores] at hs
  split at hs
  · split at hs
    · exact extract_stores_by_patterns_good _ _ s hs
    · exact extract_stores_by_patterns_good _ _ s hs
  · exact extract_structured_core_good _ _ s hs

/-- C9: parsing never fails and always returns a (possibly empty) list, for
both kinds and on both the structured and the fallback paths: the embedded
parse functions are total (accepted by the kernel as terminating on every
input, including the empty string and arbitrary garbage), and every record
they emit carries a non-empty primary identifier (product name / store
name). -/
theorem c9_parse_never_fails (s z : Str) :
    (∀ p ∈ parse_product_response s, ∃ n, p.name = some n ∧ n ≠ []) ∧
    (∀ st ∈ parse_store_response s z, st.store_name ≠ []) :=
  ⟨parse_product_response_good s,
   fun st hst => rawStores_good s z st (dedupStores_subset _ st hst)⟩

/-- C9 witness: concrete runs on a well-formed product input and a free-text
store input. -/
theorem c9_witness :
    (∃ n, ({ name := some (str "Widget") } : PyProduct).name = some n ∧
      n ≠ []) ∧
    ({ store_id := str "target", store_name := str "Target",
       zipcode := str "60622", status := str "active" } :
      StoreRec).store_name ≠ [] :=
  ⟨(c9_parse_never_fails (str "PRODUCT: Widget") (str "60622")).1
     { name := some (str "Widget") } (by decide),
   (c9_parse_never_fails (str "We found Target nearby") (str "60622")).2
     { store_id := str "target", store_name := str "Target",
       zipcode := str "60622", status := str "active" } (by decide)⟩

/-! ## C10 -/

/-- Two known field prefixes that are not prefixes of one another cannot both
match the head of one line. -/
theorem not_other_prefix {p q l : Str} (hq : q.isPrefixOf l = true)
    (hpq : ¬ (p <+: q)) (hqp : ¬ (q <+: p)) : p.isPrefixOf l = false := by
  by_contra h
  have hp : p <+: l := List.isPrefixOf_iff_prefix.1 (by
    cases hb : p.isPrefixOf l with
    | true => rfl
    | false => exact absurd hb h)
  have hq' : q <+: l := List.isPrefixOf_iff_prefix.1 hq
  cases List.prefix_or_prefix_of_prefix hp hq' with
  | inl h1 => exact hpq h1
  | inr h2 => exact hqp h2

/-- C10: on a line that starts with `DEALS:` but contains a bare URL with a
known image extension, a record with no image URL yet takes the URL as its
`image_url` and the line sets no `deals` value — the bare-URL recovery is
checked before the `DEALS:` field prefix. -/
theorem c10_bare_url_beats_deals (st : PyProduct) (rawLine : Str) (u : Str)
    (hdeals : pyStartswith (str "DEALS:") (pyStrip rawLine) = true)
    (hurl : findImageUrl (pyStrip rawLine) = some u)
    (himg : st.image_url = none) :
    (prodLineStep st rawLine).image_url = some u ∧
      (prodLineStep st rawLine).deals = st.deals := by
  obtain ⟨t, ht⟩ := List.isPrefixOf_iff_prefix.1 hdeals
  have hne : ¬ (pyStrip rawLine = []) := by
    rw [← ht]
    simp [str]
  have hno : ∀ p : Str, ¬ (p <+: str "DEALS:") → ¬ (str "DEALS:" <+: p) →
      ¬ (pyStartswith p (pyStrip rawLine) = true) := by
    intro p hpq hqp
    rw [show pyStartswith p (pyStrip rawLine) =
      p.isPrefixOf (pyStrip rawLine) from rfl,
      not_other_prefix hdeals hpq hqp]
    simp
  simp only [prodLineStep]
  rw [if_neg hne,
    if_neg (hno (str "PRODUCT:") (by decide) (by decide)),
    if_neg (hno (str "BRAND:") (by decide) (by decide)),
    if_neg (hno (str "PRICE:") (by decide) (by decide)),
    if_neg (hno (str "SIZE:") (by decide) (by decide)),
    if_neg (hno (str "CATEGORY:") (by decide) (by decide)),
    if_neg (hno (str "AVAILABILITY:") (by decide) (by decide)),
    if_neg (hno (str "DESCRIPTION:") (by decide) (by decide)),
    if_neg (hno (str "IMAGE_URL:") (by decide) (by decide))]
  unfold urlOrDeals
  rw [hurl]
  show ((if st.image_url = none then { st with image_url := some u }
    else dealsTail st (pyStrip rawLine))).image_url = some u ∧
    ((if st.image_url = none then { st with image_url := some u }
      else dealsTail st (pyStrip rawLine))).deals = st.deals
  rw [if_pos himg]
  exact ⟨rfl, rfl⟩

/-- C10 witness: a concrete `DEALS:` line carrying a bare image URL. -/
theorem c10_witness :
    (prodLineStep {} (str "DEALS: see https://x.com/a.jpg now")).image_url =
      some (str "https://x.com/a.jpg") ∧
    (prodLineStep {} (str "DEALS: see https://x.com/a.jpg now")).deals =
      ({} : PyProduct).deals :=
  c10_bare_url_beats_deals {} (str "DEALS: see https://x.com/a.jpg now")
    (str "https://x.com/a.jpg") (by decide) (by decide) rfl
